import Mathlib

/-!
Verification of core scheduler and scheme-subsystem properties of a Redox-style
microkernel.  The definitions below are a shallow embedding of the Rust sources
under `src/` (context/switch.rs, scheme/mod.rs, scheme/proc.rs, scheme/debug.rs).
Machine integers are modelled as `Nat`/`Int` with explicit bounds where overflow
matters; fallible operations return `Except Err`; operations of the real kernel
that can panic or diverge are wrapped in `Option` (`none` = panic / infinite
loop).  Subsystems of the repository that are not present under `src/`
(the context-table module, the cpu-set type, ptrace, usercopy, memory) are
modelled from the specification; each such definition carries a doc comment
saying so.
-/

set_option maxRecDepth 10000

/-- Error kinds surfaced by kernel operations (scheme/mod.rs, syscall error constants). -/
inductive Err where
  | EPERM | ENOENT | ESRCH | EAGAIN | ENOMEM | EACCES | EBUSY | EEXIST
  | ENODEV | EINVAL | EBADF | ESPIPE | EBADFD | EOVERFLOW | EOPNOTSUPP
  | ENOTRECOVERABLE
  deriving DecidableEq, Repr

/-- Machine word width: the kernel targets 64-bit architectures. -/
def USIZE_BITS : Nat := 64

/-- Largest `usize` value, `usize::MAX`. -/
def USIZE_MAX : Nat := 2 ^ USIZE_BITS - 1

/-- Largest `u32` value, `u32::MAX`. -/
def U32_MAX : Nat := 2 ^ 32 - 1

/-- Seek whence constant `SEEK_SET` (external syscall crate). -/
def SEEK_SET : Nat := 0

/-- Seek whence constant `SEEK_CUR` (external syscall crate). -/
def SEEK_CUR : Nat := 1

/-- Seek whence constant `SEEK_END` (external syscall crate). -/
def SEEK_END : Nat := 2

/-- Rust `usize::try_from(r : isize)`: succeeds exactly on non-negative values
(on 64-bit, every non-negative `isize` fits a `usize`).  The caller in
`calc_seek_offset` maps the failure to `EINVAL`. -/
def usizeTryFromIsize (r : Int) : Except Err Nat :=
  if 0 ≤ r then .ok r.toNat else .error .EINVAL

/-- Rust `usize::checked_add_signed`: `some` exactly when `c + r` stays inside
the `usize` range. -/
def checkedAddSigned (c : Nat) (r : Int) : Option Nat :=
  if 0 ≤ (c : Int) + r ∧ (c : Int) + r < 2 ^ USIZE_BITS then ((c : Int) + r).toNat else none

/-- Embedding of `calc_seek_offset` (scheme/mod.rs, lines 413-421). -/
def calc_seek_offset (cur_pos : Nat) (rel_pos : Int) (whence : Nat) (len : Nat) :
    Except Err Nat :=
  if whence = SEEK_SET then
    usizeTryFromIsize rel_pos
  else if whence = SEEK_CUR then
    match checkedAddSigned cur_pos rel_pos with
    | some v => .ok v
    | none => .error .EOVERFLOW
  else if whence = SEEK_END then
    match checkedAddSigned len rel_pos with
    | some v => .ok v
    | none => .error .EOVERFLOW
  else
    .error .EINVAL

/-- One preemption tick on a per-CPU counter (context/switch.rs, `tick`,
lines 94-104, together with the first statement of `switch`, line 125, which
resets `pit_ticks` to 0).  Input is the current `pit_ticks` value; output is
the new `pit_ticks` value and whether `switch()` was invoked. -/
def tickStep (c : Nat) : Nat × Bool :=
  let new_ticks := c + 1
  if new_ticks ≥ 3 then (0, true) else (new_ticks, false)

/-- `n` successive `tick()` calls on one CPU starting from a zero counter:
returns the final counter value and the number of `switch()` invocations. -/
def tickRun : Nat → Nat × Nat
  | 0 => (0, 0)
  | n + 1 =>
    let p := tickRun n
    let q := tickStep p.1
    (q.1, p.2 + if q.2 then 1 else 0)

theorem tickRun_counter_lt (n : Nat) : (tickRun n).1 < 3 := by
  induction n with
  | zero => simp [tickRun]
  | succ n ih =>
    simp only [tickRun, tickStep]
    split
    · simp
    · omega

/-- C8 counterexample: `calc_seek_offset 0 (-1) SEEK_SET 0` wraps outside the
`usize` range (the relative offset is negative), yet the function returns
`EINVAL`, not `EOVERFLOW` as the claim's "EOVERFLOW iff the arithmetic would
wrap" requires. -/
theorem c8_seek_set_negative_counterexample :
    calc_seek_offset 0 (-1) SEEK_SET 0 = .error .EINVAL
    ∧ (-1 : Int) < 0
    ∧ Err.EINVAL ≠ Err.EOVERFLOW :=
  ⟨rfl, by norm_num, by decide⟩

/-- C8 (amended): `calc_seek_offset(cur, rel, SEEK_SET, len)` returns `rel`
whenever `rel ≥ 0` and `EINVAL` (not `EOVERFLOW`) when `rel < 0`; for
`SEEK_CUR` and `SEEK_END` the result is `EOVERFLOW` exactly when `cur + rel`
respectively `len + rel` leaves the `usize` range; any other whence yields
`EINVAL`. -/
theorem c8_calc_seek_offset_amended (cur len : Nat) (rel : Int) (whence : Nat) :
    (0 ≤ rel → calc_seek_offset cur rel SEEK_SET len = .ok rel.toNat)
    ∧ (rel < 0 → calc_seek_offset cur rel SEEK_SET len = .error .EINVAL)
    ∧ (calc_seek_offset cur rel SEEK_CUR len = .error .EOVERFLOW ↔
        ¬ (0 ≤ (cur : Int) + rel ∧ (cur : Int) + rel < 2 ^ USIZE_BITS))
    ∧ (calc_seek_offset cur rel SEEK_END len = .error .EOVERFLOW ↔
        ¬ (0 ≤ (len : Int) + rel ∧ (len : Int) + rel < 2 ^ USIZE_BITS))
    ∧ (whence ≠ SEEK_SET → whence ≠ SEEK_CUR → whence ≠ SEEK_END →
        calc_seek_offset cur rel whence len = .error .EINVAL) := by
  refine ⟨?_, ?_, ?_, ?_, ?_⟩
  · intro h
    simp [calc_seek_offset, usizeTryFromIsize, h]
  · intro h
    simp [calc_seek_offset, usizeTryFromIsize, not_le.mpr h]
  · by_cases hc : 0 ≤ (cur : Int) + rel ∧ (cur : Int) + rel < 2 ^ USIZE_BITS
    · simp [calc_seek_offset, SEEK_CUR, SEEK_SET, checkedAddSigned, hc]
    · simp [calc_seek_offset, SEEK_CUR, SEEK_SET, checkedAddSigned, hc]
  · by_cases hc : 0 ≤ (len : Int) + rel ∧ (len : Int) + rel < 2 ^ USIZE_BITS
    · simp [calc_seek_offset, SEEK_END, SEEK_SET, SEEK_CUR, checkedAddSigned, hc]
    · simp [calc_seek_offset, SEEK_END, SEEK_SET, SEEK_CUR, checkedAddSigned, hc]
  · intro h0 h1 h2
    simp [calc_seek_offset, h0, h1, h2]

/-- Witness for the amended C8 theorem at concrete inputs. -/
theorem c8_calc_seek_offset_amended_witness :
    calc_seek_offset 3 7 SEEK_SET 10 = .ok 7
    ∧ calc_seek_offset 3 7 9 10 = .error .EINVAL :=
  ⟨by simpa using (c8_calc_seek_offset_amended 3 10 7 9).1 (by norm_num),
   (c8_calc_seek_offset_amended 3 10 7 9).2.2.2.2 (by decide) (by decide) (by decide)⟩

/-- C3: a `tick()` call from a reachable counter value (every reachable value
is below 3, by `tickRun_counter_lt`) increments the counter and invokes
`switch()` — which resets the counter to zero — exactly when the incremented
count reaches 3; hence three successive `tick()` calls from a zero counter
cause exactly one switch attempt and leave the counter at zero. -/
theorem c3_tick_three_ticks :
    (∀ c : Nat, c < 3 → (((tickStep c).2 = true) ↔ c + 1 = 3))
    ∧ (∀ c : Nat, (tickStep c).2 = true → (tickStep c).1 = 0)
    ∧ tickRun 3 = (0, 1) := by
  refine ⟨?_, ?_, rfl⟩
  · intro c hc
    interval_cases c <;> simp [tickStep]
  · intro c hc
    simp only [tickStep] at hc ⊢
    split at hc
    · simp_all [tickStep]
    · simp_all

/-- Witness for C3 at concrete counters: the first tick from zero does not
switch, the third tick does and resets the counter. -/
theorem c3_tick_three_ticks_witness :
    ((0 : Nat) < 3 ∧ (((tickStep 0).2 = true) ↔ 0 + 1 = 3))
    ∧ ((tickStep 2).2 = true ∧ (tickStep 2).1 = 0) :=
  ⟨⟨by decide, c3_tick_three_ticks.1 0 (by decide)⟩,
   ⟨by decide, c3_tick_three_ticks.2.1 2 (by decide)⟩⟩

/-- Modelled from the spec: the scheduling-affinity set type `LogicalCpuSet`
(cpu_set.rs is not under src/).  Per the spec, an affinity is either
unconstrained — the value stored when `u32::MAX` is written to
`sched-affinity`, read back as `usize::MAX` — or pinned to a single CPU, read
back as its first allowed CPU id.  `kread` in proc.rs recognises the
unconstrained case by comparing against `LogicalCpuSet::empty()`, so `all`
plays the role of both `LogicalCpuSet::all()` and `LogicalCpuSet::empty()`. -/
inductive LogicalCpuSet where
  | all
  | single (id : Nat)
  deriving DecidableEq, Repr

/-- Modelled from the spec: membership test used by the affinity check in
`update_runnable`; the unconstrained set contains every CPU. -/
def LogicalCpuSet.contains : LogicalCpuSet → Nat → Bool
  | .all, _ => true
  | .single i, cpu => i == cpu

/-- Context status variants (spec data model; context/mod.rs is not under
src/). -/
inductive Status where
  | runnable
  | softBlocked
  | stopped (sig : Nat)
  | exited (code : Nat)
  deriving DecidableEq, Repr

/-- Modelled from the spec: `Status::is_runnable`. -/
def Status.is_runnable : Status → Bool
  | .runnable => true
  | _ => false

/-- Modelled from the spec: `Status::is_soft_blocked`. -/
def Status.is_soft_blocked : Status → Bool
  | .softBlocked => true
  | _ => false

/-- Whether a status is `Exited(_)`, as matched by `with_context` in proc.rs. -/
def Status.isExited : Status → Bool
  | .exited _ => true
  | _ => false

/-- Abstraction of the user-mode trap frame reachable through
`ptrace::regs_for` (ptrace.rs is not under src/): a single-step flag plus an
opaque register payload. -/
structure Regs where
  singlestep : Bool
  payload : Nat
  deriving DecidableEq, Repr

/-- Kernel register save area `arch`, including the aarch64 TLS base registers
touched by `regs/env`.  The payload abstracts the remaining registers. -/
structure ArchRegs where
  payload : Nat
  tpidr_el0 : Nat
  tpidrro_el0 : Nat
  deriving DecidableEq, Repr

/-- A file description entry `{scheme, number}` as read by
`extract_scheme_number` in proc.rs. -/
structure FileDesc where
  scheme : Nat
  number : Nat
  deriving DecidableEq, Repr

/-- A kernel context (spec data model §3; the context structure itself lives in
context/mod.rs, outside src/, but every field here is one the src/ files read
or write).  Shared resources (file table, signal actions, address space) are
ids into stores held by the kernel state, modelling the `Arc` references. -/
structure Context where
  id : Nat
  running : Bool
  ptrace_stop : Bool
  sched_affinity : LogicalCpuSet
  cpu_id : Option Nat
  ksig_restore : Bool
  ksig : Option (ArchRegs × Nat × Option (List Nat) × Nat)
  status : Status
  pending : List Nat
  wake : Option Nat
  arch : ArchRegs
  kfx : Nat
  kstack : Option (List Nat)
  regs : Option Regs
  name : List UInt8
  sigstack : Option Nat
  euid : Nat
  egid : Nat
  ppid : Nat
  files : Nat
  actions : Nat
  addr_space : Option Nat
  clone_entry : Option (Nat × Nat)
  deriving DecidableEq, Repr

/-- Modelled from the spec: `Context::unblock_no_ipi` (context/mod.rs is not
under src/) — a soft-blocked context becomes runnable, without an IPI. -/
def Context.unblock_no_ipi (c : Context) : Context :=
  if c.status.is_soft_blocked then { c with status := .runnable } else c

/-- Set the trap-frame single-step flag when a trap frame exists, as
`ptrace::regs_for_mut(..).set_singlestep` does. -/
def Context.setSinglestep (c : Context) (b : Bool) : Context :=
  match c.regs with
  | some r => { c with regs := some { r with singlestep := b } }
  | none => c

/-- The pinned-CPU rejection test of `update_runnable`
(`!context.cpu_id.map_or(true, |x| x == cpu_id)`, switch.rs line 31). -/
def pinnedElsewhere (c : Context) (cpu_id : Nat) : Bool :=
  match c.cpu_id with
  | some x => x != cpu_id
  | none => false

/-- The ksig-restore side effect of `update_runnable` (switch.rs lines 36-67):
restore `arch`, `kfx` and the kernel stack from the saved triple, preserve the
single-step flag, clear `ksig_restore`, and unblock without IPI.  `none`
models the panics (`expect` on a missing ksig or kstack, and the implicit
`copy_from_slice` length panic). -/
def ksigRestoreStep (c : Context) : Option Context :=
  if c.ksig_restore then
    let was_singlestep := (c.regs.map Regs.singlestep).getD false
    match c.ksig with
    | none => none
    | some (a, f, kstackSaved, _sig) =>
      match kstackSaved, c.kstack with
      | some saved, some kst =>
        if kst.length = saved.length then
          some (Context.unblock_no_ipi (Context.setSinglestep
            { c with arch := a, kfx := f, kstack := some saved,
                     ksig := none, ksig_restore := false } was_singlestep))
        else none
      | some _, none => none
      | none, _ => none
  else some c

/-- The pending-signal side effect of `update_runnable` (switch.rs lines
70-72): unblock when soft-blocked with pending signals. -/
def pendingStep (c : Context) : Context :=
  if c.status.is_soft_blocked && !c.pending.isEmpty then c.unblock_no_ipi else c

/-- The wake-from-sleep side effect of `update_runnable` (switch.rs lines
75-83): when soft-blocked with a wake deadline that has passed, clear the
deadline and unblock. -/
def wakeStep (c : Context) (now : Nat) : Context :=
  if c.status.is_soft_blocked && c.wake.isSome then
    let wake := c.wake.getD 0
    if now ≥ wake then ({ c with wake := none }).unblock_no_ipi else c
  else c

/-- Embedding of `update_runnable` (context/switch.rs, lines 14-87).  `now`
stands for `time::monotonic()`; `none` models a kernel panic. -/
def update_runnable (c : Context) (cpu_id : Nat) (now : Nat) : Option (Context × Bool) :=
  if c.running then some (c, false)
  else if c.ptrace_stop then some (c, false)
  else if !(c.sched_affinity.contains cpu_id) then some (c, false)
  else if pinnedElsewhere c cpu_id then some (c, false)
  else
    match ksigRestoreStep c with
    | none => none
    | some c1 =>
      let c3 := wakeStep (pendingStep c1) now
      some (c3, c3.status.is_runnable)

/-- Spec invariant 4 on the ksig save-state: `ksig_restore` implies a complete
saved triple whose kernel-stack snapshot matches the live buffer length (the
code `expect`s or panics otherwise). -/
def wfCtx (c : Context) : Prop :=
  c.ksig_restore = true →
    ∃ a f saved sig kst, c.ksig = some (a, f, some saved, sig)
      ∧ c.kstack = some kst ∧ kst.length = saved.length

theorem ksigRestoreStep_isSome (c : Context) (h : wfCtx c) :
    ∃ c1, ksigRestoreStep c = some c1 := by
  unfold ksigRestoreStep
  by_cases hk : c.ksig_restore
  · obtain ⟨a, f, saved, sig, kst, hksig, hkst, hlen⟩ := h hk
    simp [hk, hksig, hkst, hlen]
  · simp [hk]

/-- C1: `update_runnable` rejects (returns `false`, leaving the context
untouched) whenever the context is running, or ptrace-stopped, or its affinity
set excludes the CPU, or its pinned `cpu_id` is `Some` of a different CPU;
otherwise — for a well-formed ksig save-state, so that no panic occurs — it
performs its side effects and returns exactly `status.is_runnable()` of the
resulting context. -/
theorem c1_update_runnable (c : Context) (cpu_id now : Nat) :
    ((c.running = true ∨ c.ptrace_stop = true
        ∨ c.sched_affinity.contains cpu_id = false
        ∨ (∃ x, c.cpu_id = some x ∧ x ≠ cpu_id)) →
      update_runnable c cpu_id now = some (c, false))
    ∧ (c.running = false → c.ptrace_stop = false →
        c.sched_affinity.contains cpu_id = true →
        (∀ x, c.cpu_id = some x → x = cpu_id) → wfCtx c →
        ∃ c2, update_runnable c cpu_id now = some (c2, c2.status.is_runnable)) := by
  constructor
  · rintro (h | h | h | ⟨x, hx, hne⟩)
    · simp [update_runnable, h]
    · by_cases hr : c.running <;> simp [update_runnable, hr, h]
    · by_cases hr : c.running <;> by_cases hp : c.ptrace_stop <;>
        simp [update_runnable, hr, hp, h]
    · by_cases hr : c.running <;> by_cases hp : c.ptrace_stop <;>
        by_cases ha : c.sched_affinity.contains cpu_id <;>
        simp [update_runnable, hr, hp, ha, pinnedElsewhere, hx, hne]
  · intro hr hp ha hpin hwf
    obtain ⟨c1, hc1⟩ := ksigRestoreStep_isSome c hwf
    have hpe : pinnedElsewhere c cpu_id = false := by
      unfold pinnedElsewhere
      cases hcp : c.cpu_id with
      | none => rfl
      | some x => simp [hpin x hcp]
    refine ⟨wakeStep (pendingStep c1) now, ?_⟩
    simp [update_runnable, hr, hp, ha, hpe, hc1]

/-- A minimal runnable context, used to instantiate the universally
quantified theorems. -/
def sampleCtx : Context where
  id := 1
  running := false
  ptrace_stop := false
  sched_affinity := .all
  cpu_id := none
  ksig_restore := false
  ksig := none
  status := .runnable
  pending := []
  wake := none
  arch := ⟨0, 0, 0⟩
  kfx := 0
  kstack := none
  regs := none
  name := []
  sigstack := none
  euid := 0
  egid := 0
  ppid := 0
  files := 0
  actions := 0
  addr_space := none
  clone_entry := none

/-- Witness for C1 at concrete contexts: a running context is rejected, and a
plain runnable context yields `status.is_runnable()`. -/
theorem c1_update_runnable_witness :
    update_runnable { sampleCtx with running := true } 0 0
        = some ({ sampleCtx with running := true }, false)
    ∧ ∃ c2, update_runnable sampleCtx 0 0 = some (c2, c2.status.is_runnable) :=
  ⟨(c1_update_runnable { sampleCtx with running := true } 0 0).1 (Or.inl rfl),
   (c1_update_runnable sampleCtx 0 0).2 rfl rfl rfl
     (fun x hx => by simp [sampleCtx] at hx)
     (fun h => by simp [sampleCtx] at h)⟩

theorem update_runnable_isSome (c : Context) (cpu_id now : Nat) (h : wfCtx c) :
    ∃ r, update_runnable c cpu_id now = some r := by
  obtain ⟨c1, hc1⟩ := ksigRestoreStep_isSome c h
  unfold update_runnable
  by_cases h1 : c.running <;> by_cases h2 : c.ptrace_stop <;>
    by_cases h3 : c.sched_affinity.contains cpu_id <;>
    by_cases h4 : pinnedElsewhere c cpu_id <;>
    simp [h1, h2, h3, h4, hc1]

/-- A context passes `update_runnable` on the given CPU at the given time. -/
def passes (c : Context) (cpu_id now : Nat) : Prop :=
  ∃ c2, update_runnable c cpu_id now = some (c2, true)

/-- The candidate traversal order of `switch()` (switch.rs lines 152-166):
all table entries with ids greater than the current id in ascending order,
then those with ids less than the current id in ascending order, then the
entry of the idle id (the table itself is id-sorted, so id-based range
filters preserve the ascending order). -/
def switchCandidates (tbl : List (Nat × Context)) (cur idle : Nat) :
    List (Nat × Context) :=
  tbl.filter (fun p => decide (cur < p.1))
    ++ tbl.filter (fun p => decide (p.1 < cur))
    ++ tbl.filter (fun p => decide (p.1 = idle))

/-- The candidate loop of `switch()` (switch.rs lines 167-185): skip the idle
id the first time it shows up, otherwise run `update_runnable` and select the
first candidate for which it returns true.  The outer `Option` is `none` when
`update_runnable` panics; the inner option is the selected victim (with its
post-`update_runnable` state), `none` when no candidate is runnable. -/
def findVictim (cpu_id now idle : Nat) :
    List (Nat × Context) → Bool → Option (Option (Nat × Context))
  | [], _ => some none
  | (pid, c) :: rest, skipIdle =>
    if pid = idle ∧ skipIdle = true then findVictim cpu_id now idle rest false
    else
      match update_runnable c cpu_id now with
      | none => none
      | some (c2, true) => some (some (pid, c2))
      | some (_, false) => findVictim cpu_id now idle rest skipIdle

/-- Victim selection of `switch()`: traverse the candidates with the
skip-idle flag initially set. -/
def switchSelect (tbl : List (Nat × Context)) (cur idle cpu_id now : Nat) :
    Option (Option (Nat × Context)) :=
  findVictim cpu_id now idle (switchCandidates tbl cur idle) true

theorem findVictim_no_idle (cpu_id now idle : Nat) :
    ∀ (L : List (Nat × Context)) (skipIdle : Bool),
    (∀ p ∈ L, wfCtx p.2) →
    (∀ p ∈ L, p.1 ≠ idle) →
    (∃ p ∈ L, passes p.2 cpu_id now) →
    ∃ v c2, findVictim cpu_id now idle L skipIdle = some (some (v, c2)) ∧ v ≠ idle := by
  intro L
  induction L with
  | nil => intro skipIdle _ _ hex; simp at hex
  | cons hd rest ih =>
    intro skipIdle hwf hni hex
    obtain ⟨pid, c⟩ := hd
    have hpid : pid ≠ idle := hni (pid, c) (List.mem_cons_self _ _)
    have hcond : ¬ (pid = idle ∧ skipIdle = true) := fun h => hpid h.1
    obtain ⟨⟨c2, b⟩, hur⟩ :=
      update_runnable_isSome c cpu_id now (hwf (pid, c) (List.mem_cons_self _ _))
    cases b with
    | true =>
      exact ⟨pid, c2, by simp [findVictim, hcond, hur], hpid⟩
    | false =>
      have hex2 : ∃ p ∈ rest, passes p.2 cpu_id now := by
        obtain ⟨p, hp, hpass⟩ := hex
        rcases List.mem_cons.mp hp with h | h
        · subst h
          obtain ⟨c3, hc3⟩ := hpass
          rw [hur] at hc3
          simp at hc3
        · exact ⟨p, h, hpass⟩
      obtain ⟨v, c3, hfv, hvne⟩ := ih skipIdle
        (fun p hp => hwf p (List.mem_cons_of_mem _ hp))
        (fun p hp => hni p (List.mem_cons_of_mem _ hp)) hex2
      exact ⟨v, c3, by simp [findVictim, hcond, hur, hfv], hvne⟩

theorem findVictim_append (cpu_id now idle : Nat) :
    ∀ (L1 L2 : List (Nat × Context)) (skipIdle : Bool) (x : Nat × Context),
    findVictim cpu_id now idle L1 skipIdle = some (some x) →
    findVictim cpu_id now idle (L1 ++ L2) skipIdle = some (some x) := by
  intro L1
  induction L1 with
  | nil => intro L2 skipIdle x h; simp [findVictim] at h
  | cons hd rest ih =>
    intro L2 skipIdle x h
    obtain ⟨pid, c⟩ := hd
    rw [List.cons_append]
    by_cases hcond : pid = idle ∧ skipIdle = true
    · simp only [findVictim, if_pos hcond] at h ⊢
      exact ih L2 false x h
    · simp only [findVictim, if_neg hcond] at h ⊢
      cases hur : update_runnable c cpu_id now with
      | none => rw [hur] at h; simp at h
      | some p =>
        rw [hur] at h
        obtain ⟨c2, b⟩ := p
        cases b with
        | true => simpa using h
        | false =>
          have h2 : findVictim cpu_id now idle rest skipIdle = some (some x) := by
            simpa using h
          simpa using ih L2 skipIdle x h2

theorem findVictim_skip_first (cpu_id now idle : Nat) :
    ∀ (L : List (Nat × Context)),
    (∀ p ∈ L, wfCtx p.2) →
    (L.map Prod.fst).Nodup →
    (∃ p ∈ L, p.1 ≠ idle ∧ passes p.2 cpu_id now) →
    ∃ v c2, findVictim cpu_id now idle L true = some (some (v, c2)) ∧ v ≠ idle := by
  intro L
  induction L with
  | nil => intro _ _ hex; simp at hex
  | cons hd rest ih =>
    intro hwf hnd hex
    obtain ⟨pid, c⟩ := hd
    have hndrest : (rest.map Prod.fst).Nodup := (List.nodup_cons.mp hnd).2
    have hpidrest : pid ∉ rest.map Prod.fst := (List.nodup_cons.mp hnd).1
    by_cases hpid : pid = idle
    · have hstep : findVictim cpu_id now idle ((pid, c) :: rest) true
          = findVictim cpu_id now idle rest false := by
        simp [findVictim, hpid]
      rw [hstep]
      apply findVictim_no_idle cpu_id now idle rest false
        (fun p hp => hwf p (List.mem_cons_of_mem _ hp))
      · intro p hp hpeq
        exact hpidrest ((hpeq.trans hpid.symm) ▸ List.mem_map_of_mem Prod.fst hp)
      · obtain ⟨p, hp, hpne, hpass⟩ := hex
        rcases List.mem_cons.mp hp with h | h
        · exact absurd ((congrArg Prod.fst h).trans hpid) hpne
        · exact ⟨p, h, hpass⟩
    · obtain ⟨⟨c2, b⟩, hur⟩ :=
        update_runnable_isSome c cpu_id now (hwf (pid, c) (List.mem_cons_self _ _))
      cases b with
      | true =>
        exact ⟨pid, c2, by simp [findVictim, hpid, hur], hpid⟩
      | false =>
        have hex2 : ∃ p ∈ rest, p.1 ≠ idle ∧ passes p.2 cpu_id now := by
          obtain ⟨p, hp, hpne, hpass⟩ := hex
          rcases List.mem_cons.mp hp with h | h
          · subst h
            obtain ⟨c3, hc3⟩ := hpass
            rw [hur] at hc3
            simp at hc3
          · exact ⟨p, h, hpne, hpass⟩
        obtain ⟨v, c3, hfv, hvne⟩ := ih
          (fun p hp => hwf p (List.mem_cons_of_mem _ hp)) hndrest hex2
        exact ⟨v, c3, by simp [findVictim, hpid, hur, hfv], hvne⟩

/-- C2: in the `switch()` traversal order — table entries with ids greater
than the current id, then ids less than the current id, then the idle id
exactly once, with the idle id skipped at its first natural occurrence —
whenever some non-idle, non-current context of the (id-sorted, well-formed)
table passes `update_runnable`, the selected victim is not the idle
context. -/
theorem c2_switch_prefers_nonidle (tbl : List (Nat × Context))
    (cur idle cpu_id now : Nat)
    (hsorted : List.Pairwise (fun a b => a.1 < b.1) tbl)
    (hwf : ∀ p ∈ tbl, wfCtx p.2)
    (hex : ∃ p ∈ tbl, p.1 ≠ idle ∧ p.1 ≠ cur ∧ passes p.2 cpu_id now) :
    ∃ v c2, switchSelect tbl cur idle cpu_id now = some (some (v, c2))
      ∧ v ≠ idle := by
  classical
  have hkeys : (tbl.map Prod.fst).Nodup :=
    (List.pairwise_map.mpr hsorted).imp (fun h => Nat.ne_of_lt h)
  have hndA : ((tbl.filter (fun p => decide (cur < p.1))).map Prod.fst).Nodup :=
    ((List.filter_sublist tbl).map Prod.fst).nodup hkeys
  have hndB : ((tbl.filter (fun p => decide (p.1 < cur))).map Prod.fst).Nodup :=
    ((List.filter_sublist tbl).map Prod.fst).nodup hkeys
  have hdisj : ((tbl.filter (fun p => decide (cur < p.1))).map Prod.fst).Disjoint
      ((tbl.filter (fun p => decide (p.1 < cur))).map Prod.fst) := by
    intro a haA haB
    obtain ⟨p, hpA, hpa⟩ := List.mem_map.mp haA
    obtain ⟨q, hqB, hqa⟩ := List.mem_map.mp haB
    have h1 : cur < p.1 := by
      have := (List.mem_filter.mp hpA).2
      simpa using this
    have h2 : q.1 < cur := by
      have := (List.mem_filter.mp hqB).2
      simpa using this
    rw [hpa] at h1
    rw [hqa] at h2
    omega
  have hPnd : (((tbl.filter (fun p => decide (cur < p.1)))
      ++ (tbl.filter (fun p => decide (p.1 < cur)))).map Prod.fst).Nodup := by
    rw [List.map_append, List.nodup_append]
    exact ⟨hndA, hndB, hdisj⟩
  have hPwf : ∀ p ∈ (tbl.filter (fun p => decide (cur < p.1)))
      ++ (tbl.filter (fun p => decide (p.1 < cur))), wfCtx p.2 := by
    intro p hp
    rcases List.mem_append.mp hp with h | h
    · exact hwf p (List.mem_filter.mp h).1
    · exact hwf p (List.mem_filter.mp h).1
  have hPex : ∃ p ∈ (tbl.filter (fun p => decide (cur < p.1)))
      ++ (tbl.filter (fun p => decide (p.1 < cur))),
      p.1 ≠ idle ∧ passes p.2 cpu_id now := by
    obtain ⟨p, hp, hni, hnc, hpass⟩ := hex
    rcases Nat.lt_or_ge p.1 cur with h | h
    · exact ⟨p, List.mem_append.mpr (Or.inr (List.mem_filter.mpr
        ⟨hp, by simpa using h⟩)), hni, hpass⟩
    · have hlt : cur < p.1 := lt_of_le_of_ne h (Ne.symm hnc)
      exact ⟨p, List.mem_append.mpr (Or.inl (List.mem_filter.mpr
        ⟨hp, by simpa using hlt⟩)), hni, hpass⟩
  obtain ⟨v, c2, hfv, hne⟩ :=
    findVictim_skip_first cpu_id now idle _ hPwf hPnd hPex
  refine ⟨v, c2, ?_, hne⟩
  have hsc : switchCandidates tbl cur idle
      = ((tbl.filter (fun p => decide (cur < p.1)))
          ++ (tbl.filter (fun p => decide (p.1 < cur))))
        ++ tbl.filter (fun p => decide (p.1 = idle)) := by
    simp [switchCandidates, List.append_assoc]
  rw [switchSelect, hsc]
  exact findVictim_append cpu_id now idle _ _ true (v, c2) hfv

/-- A running context standing for the current one in the C2 witness. -/
def ctxA : Context := { sampleCtx with id := 1, running := true }

/-- A runnable context that should win the C2 witness selection. -/
def ctxB : Context := { sampleCtx with id := 2 }

/-- The idle context of the C2 witness table. -/
def idleCtx : Context := { sampleCtx with id := 3 }

/-- A three-entry context table: current (running), one runnable context, and
the idle context. -/
def demoTbl : List (Nat × Context) := [(1, ctxA), (2, ctxB), (3, idleCtx)]

/-- Witness for C2 on a concrete table: with context 2 runnable, the victim
selected from `demoTbl` (current id 1, idle id 3) is not the idle context. -/
theorem c2_switch_prefers_nonidle_witness :
    ∃ v c2, switchSelect demoTbl 1 3 0 0 = some (some (v, c2)) ∧ v ≠ 3 :=
  c2_switch_prefers_nonidle demoTbl 1 3 0 0
    (by simp [demoTbl])
    (by
      intro p hp
      simp only [demoTbl, List.mem_cons, List.not_mem_nil, or_false] at hp
      rcases hp with h | h | h <;> subst h <;> intro hk <;> exact nomatch hk)
    ⟨(2, ctxB), by simp [demoTbl], by decide, by decide, ⟨ctxB, by decide⟩⟩

/-- Lookup in an association list, mirroring `BTreeMap::get`. -/
def alookup {κ α : Type} [DecidableEq κ] : List (κ × α) → κ → Option α
  | [], _ => none
  | (k, v) :: r, key => if k = key then some v else alookup r key

/-- Insert-or-replace in an association list, mirroring `BTreeMap::insert`;
also returns the previous value, as `BTreeMap::insert` does. -/
def ainsert {κ α : Type} [DecidableEq κ] : List (κ × α) → κ → α → List (κ × α) × Option α
  | [], key, v => ([(key, v)], none)
  | (k, w) :: r, key, v =>
    if k = key then ((key, v) :: r, some w)
    else
      let p := ainsert r key v
      ((k, w) :: p.1, p.2)

/-- In-place modification of an existing entry, mirroring
`BTreeMap::get_mut`; absent keys leave the list untouched. -/
def amodify {κ α : Type} [DecidableEq κ] : List (κ × α) → κ → (α → α) → List (κ × α)
  | [], _, _ => []
  | (k, v) :: r, key, f =>
    if k = key then (k, f v) :: r else (k, v) :: amodify r key f

theorem ainsert_snd {κ α : Type} [DecidableEq κ] :
    ∀ (l : List (κ × α)) (key : κ) (v : α), (ainsert l key v).2 = alookup l key := by
  intro l
  induction l with
  | nil => intro key v; simp [ainsert, alookup]
  | cons hd r ih =>
    intro key v
    obtain ⟨k, w⟩ := hd
    by_cases h : k = key <;> simp [ainsert, alookup, h, ih]

theorem alookup_amodify {κ α : Type} [DecidableEq κ] :
    ∀ (l : List (κ × α)) (key key2 : κ) (f : α → α),
    alookup (amodify l key f) key2
      = if key2 = key then (alookup l key).map f else alookup l key2 := by
  intro l
  induction l with
  | nil => intro key key2 f; simp [amodify, alookup]
  | cons hd r ih =>
    intro key key2 f
    obtain ⟨k, w⟩ := hd
    simp only [amodify]
    by_cases h : k = key
    · subst h
      simp only [if_pos rfl]
      by_cases h2 : k = key2
      · subst h2
        simp [alookup]
      · simp [alookup, h2, Ne.symm h2]
    · simp only [if_neg h]
      by_cases h2 : k = key2
      · subst h2
        simp [alookup, h]
      · simp [alookup, h, h2, Ne.symm h2, ih]

/-- Upper bound on scheme ids (scheme/mod.rs, `SCHEME_MAX_SCHEMES`). -/
def SCHEME_MAX_SCHEMES : Nat := 65536

/-- The scheme registry state (scheme/mod.rs, `SchemeList`): the set of
allocated scheme ids (the scheme implementations themselves do not matter for
the registry claims), the per-namespace name tables, and the two allocation
counters. -/
structure SchemeList where
  map : List Nat
  names : List (Nat × List (String × Nat))
  next_ns : Nat
  next_id : Nat
  deriving DecidableEq, Repr

/-- The id-search loop of `SchemeList::insert_and_pass`
(`while self.map.contains_key(&self.next_id) ...`), run with enough fuel for
its guaranteed termination. -/
def freeIdFrom (used : List Nat) : Nat → Nat → Nat
  | start, 0 => start
  | start, fuel + 1 => if used.contains start then freeIdFrom used (start + 1) fuel else start

/-- The id-allocation and map/name-table update of
`SchemeList::insert_and_pass` (scheme/mod.rs lines 251-277), after the
duplicate-name check has passed.  Error states discard the partially updated
registry; the callers below never continue after an error. -/
def SchemeList.insertFrom (s : SchemeList) (ns : Nat) (name : String) :
    Except Err (SchemeList × Nat) :=
  let start := if s.next_id ≥ SCHEME_MAX_SCHEMES then 1 else s.next_id
  let id := freeIdFrom s.map start (s.map.length + 1)
  let s1 : SchemeList := { s with map := s.map ++ [id], next_id := id + 1 }
  match alookup s1.names ns with
  | some tbl =>
    .ok ({ s1 with names := (ainsert s1.names ns (ainsert tbl name id).1).1 }, id)
  | none => .error .ENODEV

/-- Embedding of `SchemeList::insert` / `insert_and_pass` (scheme/mod.rs,
lines 240-278), with the scheme construction abstracted to the id it
receives. -/
def SchemeList.insert (s : SchemeList) (ns : Nat) (name : String) :
    Except Err (SchemeList × Nat) :=
  match alookup s.names ns with
  | some tbl =>
    if (alookup tbl name).isSome then .error .EEXIST
    else s.insertFrom ns name
  | none => s.insertFrom ns name

/-- Embedding of `SchemeList::new_ns` (scheme/mod.rs lines 148-165): allocate
a namespace id and pre-populate the new namespace with the common bindings.
The source `unwrap`s each insertion; `none` models that panic. -/
def SchemeList.new_ns (s : SchemeList) : Option (SchemeList × Nat) := do
  let ns := s.next_ns
  let s : SchemeList :=
    { s with next_ns := s.next_ns + 1, names := (ainsert s.names ns []).1 }
  let (s, _) ← (s.insert ns "").toOption
  let (s, _) ← (s.insert ns "event").toOption
  let (s, _) ← (s.insert ns "itimer").toOption
  let (s, _) ← (s.insert ns "memory").toOption
  let (s, _) ← (s.insert ns "pipe").toOption
  let (s, _) ← (s.insert ns "sys").toOption
  let (s, _) ← (s.insert ns "time").toOption
  some (s, ns)

/-- Embedding of `SchemeList::new_null` (scheme/mod.rs lines 133-145). -/
def SchemeList.new_null (s : SchemeList) : Option SchemeList := do
  let s : SchemeList := { s with names := (ainsert s.names 0 []).1 }
  let (s, _) ← (s.insert 0 "memory").toOption
  let (s, _) ← (s.insert 0 "thisproc").toOption
  let (s, _) ← (s.insert 0 "pipe").toOption
  some s

/-- Embedding of `SchemeList::new_root` (scheme/mod.rs lines 168-195) for a
build without the acpi feature and outside aarch64, so without the
`kernel.acpi` / `kernel.dtb` entries; those conditional entries play no role
in the registry claims. -/
def SchemeList.new_root (s : SchemeList) : Option SchemeList := do
  let (s, ns) ← s.new_ns
  let (s, _) ← (s.insert ns "debug").toOption
  let (s, _) ← (s.insert ns "irq").toOption
  let (s, _) ← (s.insert ns "proc").toOption
  let (s, _) ← (s.insert ns "thisproc").toOption
  let (s, _) ← (s.insert ns "serio").toOption
  some s

/-- Embedding of `SchemeList::new` (scheme/mod.rs lines 119-130): null
namespace 0, then root namespace 1. -/
def SchemeList.new : Option SchemeList := do
  let s : SchemeList := { map := [], names := [], next_ns := 1, next_id := 1 }
  let s ← s.new_null
  s.new_root

/-- Embedding of `SchemeList::get_name` (scheme/mod.rs lines 230-237),
restricted to the scheme id: the name must resolve in the namespace and the
id must be allocated. -/
def SchemeList.get_name (s : SchemeList) (ns : Nat) (name : String) : Option Nat :=
  match alookup s.names ns with
  | some tbl =>
    match alookup tbl name with
    | some id => if s.map.contains id then some id else none
    | none => none
  | none => none

/-- The copy loop of `SchemeList::make_ns` (scheme/mod.rs lines 202-214):
resolve each name in the parent namespace (ENODEV if missing) and insert it
into the new namespace, failing with EEXIST when the insertion replaces an
existing binding.  `none` models the source panic on a missing target
namespace. -/
def makeNsCopy (to_ns from_ns : Nat) :
    SchemeList → List String → Option (Except Err SchemeList)
  | s, [] => some (.ok s)
  | s, name :: rest =>
    match s.get_name from_ns name with
    | none => some (.error .ENODEV)
    | some id =>
      match alookup s.names to_ns with
      | some tbl =>
        let p := ainsert tbl name id
        if p.2.isSome then some (.error .EEXIST)
        else makeNsCopy to_ns from_ns { s with names := (ainsert s.names to_ns p.1).1 } rest
      | none => none

/-- Embedding of `SchemeList::make_ns` (scheme/mod.rs lines 197-217). -/
def SchemeList.make_ns (s : SchemeList) (from_ns : Nat) (names : List String) :
    Option (Except Err (SchemeList × Nat)) := do
  let (s0, to_ns) ← s.new_ns
  match makeNsCopy to_ns from_ns s0 names with
  | none => none
  | some (.error e) => some (.error e)
  | some (.ok s1) => some (.ok (s1, to_ns))

/-- C6 counterexample: `make_ns(root, ["time","pipe"])` does not succeed — it
fails with EEXIST, because `new_ns` pre-populates every fresh namespace with
the default bindings (among them `time` and `pipe`), so copying `time` from
the root namespace replaces an existing binding. -/
theorem c6_make_ns_time_pipe_counterexample :
    (SchemeList.new.bind (fun s => s.make_ns 1 ["time", "pipe"]))
      = some (.error .EEXIST) := rfl

/-- C6 (amended): `make_ns(parent, names)` creates a fresh namespace that is
pre-populated with the default bindings ("", event, itimer, memory, pipe,
sys, time) and copies each listed binding from the parent, failing with
ENODEV when a name is missing from the parent and with EEXIST when it is
already bound in the new namespace — in particular for any default name such
as `time`, and for any name listed twice; copying names outside the defaults,
such as `debug` and `irq` from the root namespace, succeeds. -/
theorem c6_make_ns_amended :
    (∀ (s : SchemeList) (to_ns from_ns : Nat) (name : String) (rest : List String),
      s.get_name from_ns name = none →
      makeNsCopy to_ns from_ns s (name :: rest) = some (.error .ENODEV))
    ∧ (∀ (s : SchemeList) (to_ns from_ns : Nat) (name : String) (rest : List String)
        (id : Nat) (tbl : List (String × Nat)),
      s.get_name from_ns name = some id →
      alookup s.names to_ns = some tbl →
      (alookup tbl name).isSome →
      makeNsCopy to_ns from_ns s (name :: rest) = some (.error .EEXIST))
    ∧ (SchemeList.new.bind (fun s => s.make_ns 1 ["time", "pipe"]))
        = some (.error .EEXIST)
    ∧ (SchemeList.new.bind (fun s => s.make_ns 1 ["nonexistent"]))
        = some (.error .ENODEV)
    ∧ (∃ s2 ns2, (SchemeList.new.bind (fun s => s.make_ns 1 ["debug", "irq"]))
        = some (.ok (s2, ns2)))
    ∧ (SchemeList.new.bind (fun s => s.make_ns 1 ["debug", "debug"]))
        = some (.error .EEXIST) := by
  refine ⟨?_, ?_, rfl, rfl, ⟨_, _, rfl⟩, rfl⟩
  · intro s to_ns from_ns name rest h
    simp [makeNsCopy, h]
  · intro s to_ns from_ns name rest id tbl hg ht hs
    have : (ainsert tbl name id).2.isSome := by rw [ainsert_snd]; exact hs
    simp [makeNsCopy, hg, ht, this]

/-- A small registry used to instantiate the quantified parts of the amended
C6 theorem: namespace 1 binds `x` to scheme 7. -/
def c6s : SchemeList where
  map := [7]
  names := [(1, [("x", 7)])]
  next_ns := 2
  next_id := 8

/-- Witness for the amended C6 theorem: a missing parent binding yields
ENODEV, and copying onto an existing binding yields EEXIST. -/
theorem c6_make_ns_amended_witness :
    makeNsCopy 1 1 c6s ["zzz"] = some (.error .ENODEV)
    ∧ makeNsCopy 1 1 c6s ["x"] = some (.error .EEXIST) :=
  ⟨c6_make_ns_amended.1 c6s 1 1 "zzz" [] rfl,
   c6_make_ns_amended.2.1 c6s 1 1 "x" [] 7 [("x", 7)] rfl rfl rfl⟩

/-- Hardware page size (external paging subsystem). -/
def PAGE_SIZE : Nat := 4096

/-- End of the user address region (external arch constant). -/
def USER_END_OFFSET : Nat := 0x0000800000000000

/-- Open flag `O_NONBLOCK` (external syscall crate). -/
def O_NONBLOCK : Nat := 0x40000

/-- Open flag `O_CLOEXEC` (external syscall crate). -/
def O_CLOEXEC : Nat := 0x1000000

/-- Open flag `O_TRUNC` (external syscall crate). -/
def O_TRUNC : Nat := 0x4000000

/-- Open flag `O_EXCL` (external syscall crate). -/
def O_EXCL : Nat := 0x8000000

/-- Open flag `O_RDWR` (external syscall crate). -/
def O_RDWR : Nat := 0x30000

/-- Fcntl command `F_GETFL` (external syscall crate). -/
def F_GETFL : Nat := 3

/-- Fcntl command `F_SETFL` (external syscall crate). -/
def F_SETFL : Nat := 4

/-- Signal number `SIGKILL`. -/
def SIGKILL : Nat := 9

/-- Signal number `SIGSTOP`. -/
def SIGSTOP : Nat := 19

/-- Ptrace flag `PTRACE_STOP_SINGLESTEP` (external syscall crate). -/
def PTRACE_STOP_SINGLESTEP : Nat := 0x4

/-- Mask of ptrace stop bits (external syscall crate). -/
def PTRACE_STOP_MASK : Nat := 0xFF

/-- Mask of ptrace event bits (external syscall crate). -/
def PTRACE_EVENT_MASK : Nat := 0xFFFFFF00

/-- Mask of ptrace behaviour-flag bits (external syscall crate). -/
def PTRACE_FLAG_MASK : Nat := 0xFFFFFFFF00000000

/-- Ptrace event kind `PTRACE_EVENT_CLONE` (external syscall crate). -/
def PTRACE_EVENT_CLONE : Nat := 0x100

/-- Opcode of the addrspace write language: borrow-map (spec §6). -/
def ADDRSPACE_OP_MMAP : Nat := 0

/-- Opcode of the addrspace write language: move grants (spec §6). -/
def ADDRSPACE_OP_TRANSFER : Nat := 1

/-- Opcode of the addrspace write language: unmap (spec §6). -/
def ADDRSPACE_OP_MUNMAP : Nat := 2

/-- Opcode of the addrspace write language: change protection (spec §6). -/
def ADDRSPACE_OP_MPROTECT : Nat := 3

/-- Map flag `MAP_FIXED` (external syscall crate). -/
def MAP_FIXED : Nat := 0x4

/-- Union of all defined `MapFlags` bits (external syscall crate);
`MapFlags::from_bits` succeeds when no other bit is set. -/
def MAP_FLAGS_ALL : Nat := 0x0007001F

/-- Size of the arch `FloatRegisters` struct (external type; the exact value
does not affect the claims). -/
def FLOAT_REGS_SIZE : Nat := 512

/-- Size of the arch `IntRegisters` struct (external type). -/
def INT_REGS_SIZE : Nat := 288

/-- Size of the aarch64 `EnvRegisters` struct: two machine words. -/
def ENV_REGS_SIZE : Nat := 16

/-- Size of a `PtraceEvent` record: five machine words. -/
def PTRACE_EVENT_SIZE : Nat := 40

/-- Size of a `GrantDesc` record (spec §6 wire format). -/
def GRANT_DESC_SIZE : Nat := 32

/-- Little-endian decoding of a byte list into a number. -/
def leBytesToNat (bs : List UInt8) : Nat :=
  bs.foldr (fun b acc => b.toNat + 256 * acc) 0

/-- Modelled from the spec: `UserSliceRo::read_usize` of the usercopy
collaborator (not under src/) — read one machine word from the start of the
buffer. -/
def read_usize (buf : List UInt8) : Except Err Nat :=
  if 8 ≤ buf.length then .ok (leBytesToNat (buf.take 8)) else .error .EINVAL

/-- Modelled from the spec: the `usizes()` word iterator of usercopy —
successive exact 8-byte chunks, a trailing partial chunk is dropped. -/
def usizes (buf : List UInt8) : List Nat :=
  if _h : 8 ≤ buf.length then
    leBytesToNat (buf.take 8) :: usizes (buf.drop 8)
  else []
termination_by buf.length
decreasing_by simp [List.length_drop]; omega

/-- A single virtual-memory grant as exposed through `GrantDesc` records
(spec §6): base address, byte size, flags, file offset. -/
structure GrantModel where
  base : Nat
  size : Nat
  flags : Nat
  offset : Nat
  deriving DecidableEq, Repr

/-- An address space as far as the proc scheme observes it: the
`mmap-min-addr` bound and the grant list. -/
structure AddrSpaceModel where
  mmap_min : Nat
  grants : List GrantModel
  deriving DecidableEq, Repr

/-- Modelled from the spec: a ptrace session (ptrace.rs is not under src/) —
the pending breakpoint flags, queued events (cause and first payload word),
and whether the breakpoint was reached. -/
structure SessionModel where
  breakpoint : Option Nat
  events : List (Nat × Nat)
  reached : Bool
  deriving DecidableEq, Repr

/-- Register-set selector of a `regs/...` proc handle (proc.rs, `RegsKind`). -/
inductive RegsKind where
  | float
  | int
  | env
  deriving DecidableEq, Repr

/-- Attribute selector of a `uid`/`gid` proc handle (proc.rs, `Attr`). -/
inductive AttrKind where
  | uid
  | gid
  deriving DecidableEq, Repr

/-- The handle-variant tag of a proc handle (proc.rs, `Operation`); `Arc`
payloads are ids into the kernel-state stores. -/
inductive Operation where
  | regs (k : RegsKind)
  | trace
  | static (path : String)
  | name
  | sigstack
  | attr (a : AttrKind)
  | filetable (ref : Nat)
  | addrspace (ref : Nat)
  | currentAddrSpace
  | awaitingAddrSpaceChange (new : Nat) (new_sp : Nat) (new_ip : Nat)
  | currentFiletable
  | awaitingFiletableChange (new : Nat)
  | openViaDup
  | schedAffinity
  | sigactions (ref : Nat)
  | currentSigactions
  | awaitingSigactionsChange (new : Nat)
  | mmapMinAddr (ref : Nat)
  deriving DecidableEq, Repr

/-- Mutable auxiliary state of a proc handle (proc.rs, `OperationData`). -/
inductive OperationData where
  | trace (clones : List Nat)
  | static (buf : List UInt8) (offset : Nat)
  | offset (o : Nat)
  | other
  deriving DecidableEq, Repr

/-- The immutable-by-intent part of a proc handle (proc.rs, `Info`). -/
structure Info where
  pid : Nat
  flags : Nat
  operation : Operation
  deriving DecidableEq, Repr

/-- A proc-scheme handle (proc.rs, `Handle`). -/
structure Handle where
  info : Info
  data : OperationData
  deriving DecidableEq, Repr

/-- Scheme implementations reachable from the proc-scheme code under src/:
the proc scheme itself, whose handles live in the kernel state below, or any
other scheme, which answers the capability probes (`as_filetable`,
`as_addrspace`, `as_sigactions`) with the `KernelScheme` defaults, EBADF. -/
inductive SchemeKind where
  | procScheme
  | otherScheme
  deriving DecidableEq, Repr

/-- The kernel state visible to the proc scheme: the context table, the
current context id and CPU count, the proc handle table with its monotonic
id counter, the shared file-table / address-space stores, the ptrace session
table, the scheme registry restricted to its dispatch kind, and the hardware
TLS base registers (aarch64) that `regs/env` reads and writes for the
current context. -/
structure Kernel where
  contexts : List (Nat × Context)
  curId : Nat
  cpuCount : Nat
  handles : List (Nat × Handle)
  nextHandleId : Nat
  filetables : List (Nat × List (Option FileDesc))
  addrspaces : List (Nat × AddrSpaceModel)
  sessions : List (Nat × SessionModel)
  schemes : List (Nat × SchemeKind)
  hwTpidrEl0 : Nat
  hwTpidrroEl0 : Nat
  deriving DecidableEq, Repr

/-- Context lookup, `contexts().get(pid)`. -/
def Kernel.ctx (k : Kernel) (pid : Nat) : Option Context := alookup k.contexts pid

/-- Write-locked update of one context. -/
def Kernel.modifyCtx (k : Kernel) (pid : Nat) (f : Context → Context) : Kernel :=
  { k with contexts := amodify k.contexts pid f }

/-- Proc handle lookup, `self.handles.read().get(&id)`. -/
def Kernel.handle (k : Kernel) (id : Nat) : Option Handle := alookup k.handles id

/-- Write-locked update of one proc handle. -/
def Kernel.modifyHandle (k : Kernel) (id : Nat) (f : Handle → Handle) : Kernel :=
  { k with handles := amodify k.handles id f }

/-- Embedding of `with_context` (proc.rs lines 42-53): ESRCH when the pid is
absent or the context has exited. -/
def with_context {α : Type} (k : Kernel) (pid : Nat) (f : Context → Except Err α) :
    Except Err α :=
  match k.ctx pid with
  | none => .error .ESRCH
  | some c => if c.status.isExited then .error .ESRCH else f c

/-- Embedding of `with_context_mut` (proc.rs lines 54-65).  The callbacks of
the source never mutate the context before failing, so an erring callback
leaves the kernel unchanged. -/
def with_context_mut {α : Type} (k : Kernel) (pid : Nat)
    (f : Context → Except Err (Context × α)) : Kernel × Except Err α :=
  match k.ctx pid with
  | none => (k, .error .ESRCH)
  | some c =>
    if c.status.isExited then (k, .error .ESRCH)
    else
      match f c with
      | .error e => (k, .error e)
      | .ok (c2, a) => (k.modifyCtx pid (fun _ => c2), .ok a)

/-- Embedding of `try_stop_context` (proc.rs lines 66-99): self-targeting is
EBADF; otherwise set `ptrace_stop`, wait for `running` to clear, run the
callback, restore `ptrace_stop`.  In this single-flow model no other CPU can
clear `running`, so a running target makes the stop loop spin forever:
`none`. -/
def try_stop_context {α : Type} (k : Kernel) (pid : Nat)
    (f : Context → Except Err (Context × α)) : Option (Kernel × Except Err α) :=
  if pid = k.curId then some (k, .error .EBADF)
  else
    match with_context_mut k pid
        (fun c => .ok ({ c with ptrace_stop := true }, (c.ptrace_stop, c.running))) with
    | (k1, .error e) => some (k1, .error e)
    | (k1, .ok (was_stopped, running)) =>
      if running then none
      else
        let res := with_context_mut k1 pid (fun c =>
          match f c with
          | .error e => .ok ({ c with ptrace_stop := was_stopped }, Except.error e)
          | .ok (c2, a) => .ok ({ c2 with ptrace_stop := was_stopped }, Except.ok a))
        match res with
        | (k2, .ok inner) => some (k2, inner)
        | (k2, .error e) => some (k2, .error e)

/-- Dispatch of the `as_filetable` capability probe: the proc implementation
(proc.rs lines 628-634) answers for `Filetable` handles; every other scheme
uses the `KernelScheme` default, EBADF (scheme/mod.rs lines 321-323). -/
def as_filetable (k : Kernel) (sk : SchemeKind) (number : Nat) : Except Err Nat :=
  match sk with
  | .procScheme =>
    match k.handle number with
    | none => .error .EBADF
    | some h =>
      match h.info.operation with
      | .filetable r => .ok r
      | _ => .error .EBADF
  | .otherScheme => .error .EBADF

/-- Dispatch of the `as_addrspace` capability probe (proc.rs lines 621-627,
default scheme/mod.rs lines 324-326). -/
def as_addrspace (k : Kernel) (sk : SchemeKind) (number : Nat) : Except Err Nat :=
  match sk with
  | .procScheme =>
    match k.handle number with
    | none => .error .EBADF
    | some h =>
      match h.info.operation with
      | .addrspace r => .ok r
      | _ => .error .EBADF
  | .otherScheme => .error .EBADF

/-- Dispatch of the `as_sigactions` capability probe (proc.rs lines 635-641,
default scheme/mod.rs lines 327-329). -/
def as_sigactions (k : Kernel) (sk : SchemeKind) (number : Nat) : Except Err Nat :=
  match sk with
  | .procScheme =>
    match k.handle number with
    | none => .error .EBADF
    | some h =>
      match h.info.operation with
      | .sigactions r => .ok r
      | _ => .error .EBADF
  | .otherScheme => .error .EBADF

/-- Embedding of `extract_scheme_number` (proc.rs lines 1251-1258): resolve a
file descriptor of the current context to its scheme kind and scheme-local
number. -/
def extract_scheme_number (k : Kernel) (fd : Nat) : Except Err (SchemeKind × Nat) :=
  match k.ctx k.curId with
  | none => .error .ESRCH
  | some c =>
    match alookup k.filetables c.files with
    | none => .error .EBADF
    | some files =>
      match files.getD fd none with
      | some desc =>
        match alookup k.schemes desc.scheme with
        | some sk => .ok (sk, desc.number)
        | none => .error .ENODEV
      | none => .error .EBADF

/-- Embedding of `Handle::continue_ignored_children` (proc.rs lines 209-224):
drain the clone list of a trace handle, clearing `ptrace_stop` of each
recorded clone that is not currently traced. -/
def continue_ignored_children (k : Kernel) (hid : Nat) : Kernel :=
  match k.handle hid with
  | some h =>
    match h.data with
    | .trace clones =>
      let k1 := clones.foldl (fun acc pid =>
        if (alookup acc.sessions pid).isSome then acc
        else acc.modifyCtx pid (fun c => { c with ptrace_stop := false })) k
      k1.modifyHandle hid (fun h2 => { h2 with data := .trace [] })
    | _ => k
  | none => k

/-- Modelled from the spec: `crate::syscall::validate_region` (not under
src/) — page-aligned base and size inside the user region, returning the
base page and the page count. -/
def validate_region (address size : Nat) : Except Err (Nat × Nat) :=
  if address % PAGE_SIZE = 0 ∧ size % PAGE_SIZE = 0 ∧ address + size ≤ USER_END_OFFSET then
    .ok (address / PAGE_SIZE, size / PAGE_SIZE)
  else .error .EINVAL

/-- `MapFlags::from_bits` success test: no bit outside the defined set. -/
def mapFlagsValid (v : Nat) : Bool := v &&& MAP_FLAGS_ALL == v

/-- `PtraceFlags::from_bits` success test: no bit outside the stop, event and
behaviour-flag masks. -/
def ptraceFlagsValid (v : Nat) : Bool :=
  v &&& (PTRACE_STOP_MASK ||| PTRACE_EVENT_MASK ||| PTRACE_FLAG_MASK) == v

/-- Modelled from the spec: `AddrSpace::munmap` (memory subsystem outside
src/) — drop the grants covered by the span. -/
def addrspaceMunmap (a : AddrSpaceModel) (page count : Nat) : AddrSpaceModel :=
  { a with grants := a.grants.filter (fun g =>
      decide (g.base + g.size ≤ page * PAGE_SIZE ∨ (page + count) * PAGE_SIZE ≤ g.base)) }

/-- Modelled from the spec: `AddrSpace::mprotect` (memory subsystem outside
src/) — update the flags of the grants inside the span. -/
def addrspaceMprotect (a : AddrSpaceModel) (page count flags : Nat) : AddrSpaceModel :=
  { a with grants := a.grants.map (fun g =>
      if page * PAGE_SIZE ≤ g.base ∧ g.base + g.size ≤ (page + count) * PAGE_SIZE
      then { g with flags := flags } else g) }

/-- The `kfmap` dispatch reached from the addrspace write language: the proc
implementation (proc.rs lines 642-676) requires an `AddrSpace` handle,
rejects mapping an address space into itself with EBUSY, and installs the
span as a grant of the destination space (the grant bookkeeping itself is
modelled from the spec — the memory subsystem is outside src/); every other
scheme uses the `KernelScheme` default, EOPNOTSUPP. -/
def kfmap (k : Kernel) (sk : SchemeKind) (number : Nat) (dstRef : Nat)
    (offset page page_count flags : Nat) : Except Err Kernel :=
  match sk with
  | .otherScheme => .error .EOPNOTSUPP
  | .procScheme =>
    match k.handle number with
    | none => .error .EBADF
    | some h =>
      match h.info.operation with
      | .addrspace srcRef =>
        if srcRef = dstRef then .error .EBUSY
        else
          match alookup k.addrspaces dstRef with
          | none => .error .EBADF
          | some dst =>
            let g : GrantModel :=
              { base := page * PAGE_SIZE, size := page_count * PAGE_SIZE,
                flags := flags, offset := offset }
            .ok { k with addrspaces :=
              (ainsert k.addrspaces dstRef { dst with grants := dst.grants ++ [g] }).1 }
      | _ => .error .EBADF

/-- Word access in the parsed `usizes` stream; a missing word is the
`chunks.next().ok_or(EINVAL)` failure of the source. -/
def wordAt (ws : List Nat) (i : Nat) : Except Err Nat :=
  match ws.get? i with
  | some w => .ok w
  | none => .error .EINVAL

/-- Decimal `str::parse::<u32>` on the copied byte prefix (proc.rs Attr
write): digits only, value within `u32` (a leading sign is not modelled; it
does not affect the claims). -/
def parseU32 (bs : List UInt8) : Except Err Nat :=
  if bs ≠ [] ∧ bs.all (fun b => decide (48 ≤ b.toNat ∧ b.toNat ≤ 57)) then
    let v := bs.foldl (fun acc b => acc * 10 + (b.toNat - 48)) 0
    if v ≤ U32_MAX then .ok v else .error .EINVAL
  else .error .EINVAL

/-- Whether a byte is a UTF-8 continuation byte. -/
def isUtf8Cont (b : UInt8) : Bool := 0x80 ≤ b.toNat ∧ b.toNat ≤ 0xBF

/-- UTF-8 validity of a byte list, the check behind `String::from_utf8`. -/
def utf8Valid : List UInt8 → Bool
  | [] => true
  | b :: rest =>
    let n := b.toNat
    if n < 0x80 then utf8Valid rest
    else if 0xC2 ≤ n ∧ n ≤ 0xDF then
      match rest with
      | c1 :: rest2 => isUtf8Cont c1 && utf8Valid rest2
      | [] => false
    else if 0xE0 ≤ n ∧ n ≤ 0xEF then
      match rest with
      | c1 :: c2 :: rest2 =>
        let m := c1.toNat
        let lowOk := if n = 0xE0 then 0xA0 ≤ m ∧ m ≤ 0xBF
          else if n = 0xED then 0x80 ≤ m ∧ m ≤ 0x9F
          else isUtf8Cont c1
        lowOk && isUtf8Cont c2 && utf8Valid rest2
      | _ => false
    else if 0xF0 ≤ n ∧ n ≤ 0xF4 then
      match rest with
      | c1 :: c2 :: c3 :: rest2 =>
        let m := c1.toNat
        let lowOk := if n = 0xF0 then 0x90 ≤ m ∧ m ≤ 0xBF
          else if n = 0xF4 then 0x80 ≤ m ∧ m ≤ 0x8F
          else isUtf8Cont c1
        lowOk && isUtf8Cont c2 && isUtf8Cont c3 && utf8Valid rest2
      | _ => false
    else false

/-- Update of one address space in the store. -/
def Kernel.modifyAddrspace (k : Kernel) (ref : Nat) (f : AddrSpaceModel → AddrSpaceModel) :
    Kernel :=
  { k with addrspaces := amodify k.addrspaces ref f }

/-- Update of one ptrace session. -/
def Kernel.modifySession (k : Kernel) (pid : Nat) (f : SessionModel → SessionModel) :
    Kernel :=
  { k with sessions := amodify k.sessions pid f }

/-- The `Operation::AddrSpace` write arm (proc.rs lines 865-903): the
word-stream operation language MMAP / TRANSFER / MUNMAP / MPROTECT.  The
returned byte count is the number of words the source's `next()` closure
consumed. -/
def procWriteAddrspace (k : Kernel) (ref : Nat) (buf : List UInt8) :
    Kernel × Except Err Nat :=
  let ws := usizes buf
  match wordAt ws 0 with
  | .error e => (k, .error e)
  | .ok op =>
    if op = ADDRSPACE_OP_MMAP ∨ op = ADDRSPACE_OP_TRANSFER then
      match wordAt ws 1, wordAt ws 2, wordAt ws 3, wordAt ws 4, wordAt ws 5 with
      | .ok fd, .ok offset, .ok addr, .ok size, .ok flags =>
        match validate_region addr size with
        | .error e => (k, .error e)
        | .ok (page, page_count) =>
          if ¬ mapFlagsValid flags then (k, .error .EINVAL)
          else if flags &&& MAP_FIXED = 0 then (k, .error .EOPNOTSUPP)
          else
            match extract_scheme_number k fd with
            | .error e => (k, .error e)
            | .ok (sk, number) =>
              match kfmap k sk number ref offset page page_count flags with
              | .error e => (k, .error e)
              | .ok k2 => (k2, .ok (6 * 8))
      | _, _, _, _, _ => (k, .error .EINVAL)
    else if op = ADDRSPACE_OP_MUNMAP then
      match wordAt ws 1, wordAt ws 2 with
      | .ok addr, .ok size =>
        match validate_region addr size with
        | .error e => (k, .error e)
        | .ok (page, page_count) =>
          (k.modifyAddrspace ref (fun a => addrspaceMunmap a page page_count),
            .ok (3 * 8))
      | _, _ => (k, .error .EINVAL)
    else if op = ADDRSPACE_OP_MPROTECT then
      match wordAt ws 1, wordAt ws 2, wordAt ws 3 with
      | .ok addr, .ok size, .ok flags =>
        match validate_region addr size with
        | .error e => (k, .error e)
        | .ok (page, page_count) =>
          if ¬ mapFlagsValid flags then (k, .error .EINVAL)
          else
            (k.modifyAddrspace ref (fun a => addrspaceMprotect a page page_count flags),
              .ok (4 * 8))
      | _, _, _ => (k, .error .EINVAL)
    else (k, .error .EINVAL)

/-- The aarch64 `write_env_regs` (proc.rs lines 438-455): the current context
writes the hardware TLS registers, a foreign context is stopped and its saved
`arch` registers are updated. -/
def write_env_regs (k : Kernel) (pid : Nat) (w0 w1 : Nat) :
    Option (Kernel × Except Err Unit) :=
  if pid = k.curId then
    some ({ k with hwTpidrEl0 := w0, hwTpidrroEl0 := w1 }, .ok ())
  else
    try_stop_context k pid (fun c =>
      .ok ({ c with arch := { c.arch with tpidr_el0 := w0, tpidrro_el0 := w1 } }, ()))

/-- The `Operation::Regs(Float)` write arm (proc.rs lines 905-917): decode a
`FloatRegisters` struct and store it via `with_context_mut` /
`set_fx_regs`. -/
def procWriteRegsFloat (k : Kernel) (pid : Nat) (buf : List UInt8) :
    Kernel × Except Err Nat :=
  if FLOAT_REGS_SIZE ≤ buf.length then
    with_context_mut k pid (fun c =>
      .ok ({ c with kfx := leBytesToNat (buf.take FLOAT_REGS_SIZE) }, FLOAT_REGS_SIZE))
  else (k, .error .EINVAL)

/-- The `Operation::Regs(Int)` write arm (proc.rs lines 918-932): stop the
target and load the trap frame, ENOTRECOVERABLE when it has none. -/
def procWriteRegsInt (k : Kernel) (pid : Nat) (buf : List UInt8) :
    Option (Kernel × Except Err Nat) :=
  if INT_REGS_SIZE ≤ buf.length then
    try_stop_context k pid (fun c =>
      match c.regs with
      | none => .error .ENOTRECOVERABLE
      | some r =>
        .ok ({ c with regs := some { r with payload := leBytesToNat (buf.take INT_REGS_SIZE) } },
          INT_REGS_SIZE))
  else some (k, .error .EINVAL)

/-- The `Operation::Regs(Env)` write arm (proc.rs lines 933-937). -/
def procWriteRegsEnv (k : Kernel) (pid : Nat) (buf : List UInt8) :
    Option (Kernel × Except Err Nat) :=
  if ENV_REGS_SIZE ≤ buf.length then
    match wordAt (usizes buf) 0, wordAt (usizes buf) 1 with
    | .ok w0, .ok w1 =>
      match write_env_regs k pid w0 w1 with
      | none => none
      | some (k1, .ok ()) => some (k1, .ok ENV_REGS_SIZE)
      | some (k1, .error e) => some (k1, .error e)
    | _, _ => some (k, .error .EINVAL)
  else some (k, .error .EINVAL)

/-- The breakpoint update of the `Operation::Trace` write arm (proc.rs lines
944-950): install the decoded flags as the next breakpoint when they carry a
stop or event bit, clear it otherwise. -/
def traceSetBreakpoint (k : Kernel) (pid op : Nat) : Kernel :=
  k.modifySession pid (fun s => { s with breakpoint :=
    if op &&& (PTRACE_STOP_MASK ||| PTRACE_EVENT_MASK) ≠ 0 then some op else none })

/-- The SINGLESTEP part of the `Operation::Trace` write arm (proc.rs lines
952-965): stop the target and set its trap-frame single-step bit. -/
def traceSinglestepStep (k : Kernel) (pid op : Nat) :
    Option (Kernel × Except Err Unit) :=
  if op &&& PTRACE_STOP_SINGLESTEP ≠ 0 then
    try_stop_context k pid (fun c =>
      match c.regs with
      | none => .error .ENOTRECOVERABLE
      | some r => .ok ({ c with regs := some { r with singlestep := true } }, ()))
  else some (k, .ok ())

/-- The `Operation::Trace` write arm (proc.rs lines 939-980): decode the
`PtraceFlags`, set the next breakpoint, apply SINGLESTEP to the stopped
target, clear `ptrace_stop`, and notify the tracee condition. -/
def procWriteTrace (k : Kernel) (pid : Nat) (buf : List UInt8) :
    Option (Kernel × Except Err Nat) :=
  match read_usize buf with
  | .error e => some (k, .error e)
  | .ok op =>
    if ¬ ptraceFlagsValid op then some (k, .error .EINVAL)
    else
      match alookup k.sessions pid with
      | none => some (k, .error .ENODEV)
      | some _ =>
        match traceSinglestepStep (traceSetBreakpoint k pid op) pid op with
        | none => none
        | some (k2, .error e) => some (k2, .error e)
        | some (k2, .ok ()) =>
          match with_context_mut k2 pid (fun c =>
              .ok ({ c with ptrace_stop := false }, ())) with
          | (k3, .error e) => some (k3, .error e)
          | (k3, .ok ()) =>
            match alookup k3.sessions pid with
            | none => some (k3, .error .ENODEV)
            | some _ => some (k3, .ok 8)

/-- The `Operation::Name` write arm (proc.rs lines 981-989): copy up to 256
bytes, validate UTF-8, store the name — with no Exited check on the target
context. -/
def procWriteName (k : Kernel) (pid : Nat) (buf : List UInt8) :
    Kernel × Except Err Nat :=
  let namePart := buf.take (min 256 buf.length)
  if ¬ utf8Valid namePart then (k, .error .EINVAL)
  else
    match k.ctx pid with
    | none => (k, .error .ESRCH)
    | some _ =>
      (k.modifyCtx pid (fun c => { c with name := namePart }), .ok buf.length)

/-- The `Operation::Sigstack` write arm (proc.rs lines 990-994): read one
word, `usize::MAX` clears the signal stack — no Exited check. -/
def procWriteSigstack (k : Kernel) (pid : Nat) (buf : List UInt8) :
    Kernel × Except Err Nat :=
  match read_usize buf with
  | .error e => (k, .error e)
  | .ok v =>
    match k.ctx pid with
    | none => (k, .error .ESRCH)
    | some _ =>
      (k.modifyCtx pid (fun c =>
        { c with sigstack := if v ≠ USIZE_MAX then some v else none }),
        .ok buf.length)

/-- The `Operation::Attr` write arm (proc.rs lines 995-1008): parse a decimal
`u32` from up to 32 bytes and store it as effective uid or gid — no Exited
check. -/
def procWriteAttr (k : Kernel) (pid : Nat) (a : AttrKind) (buf : List UInt8) :
    Kernel × Except Err Nat :=
  match parseU32 (buf.take (min 32 buf.length)) with
  | .error e => (k, .error e)
  | .ok v =>
    match k.ctx pid with
    | none => (k, .error .ESRCH)
    | some _ =>
      (k.modifyCtx pid (fun c =>
        match a with
        | .uid => { c with euid := v }
        | .gid => { c with egid := v }),
        .ok buf.length)

/-- The `Operation::CurrentFiletable` write arm (proc.rs lines 1011-1020):
resolve the fd to a file table and replace the handle operation with
`AwaitingFiletableChange`. -/
def procWriteCurrentFiletable (k : Kernel) (id : Nat) (buf : List UInt8) :
    Kernel × Except Err Nat :=
  match read_usize buf with
  | .error e => (k, .error e)
  | .ok fd =>
    match extract_scheme_number k fd with
    | .error e => (k, .error e)
    | .ok (sk, number) =>
      match as_filetable k sk number with
      | .error e => (k, .error e)
      | .ok ft =>
        match k.handle id with
        | none => (k, .error .EBADF)
        | some _ =>
          (k.modifyHandle id (fun h2 =>
            { h2 with info := { h2.info with operation := .awaitingFiletableChange ft } }),
            .ok 8)

/-- The `Operation::CurrentAddrSpace` write arm (proc.rs lines 1021-1033):
read fd, sp and ip, resolve the fd to an address space, and replace the
handle operation with `AwaitingAddrSpaceChange`. -/
def procWriteCurrentAddrSpace (k : Kernel) (id : Nat) (buf : List UInt8) :
    Kernel × Except Err Nat :=
  match wordAt (usizes buf) 0, wordAt (usizes buf) 1, wordAt (usizes buf) 2 with
  | .ok fd, .ok sp, .ok ip =>
    match extract_scheme_number k fd with
    | .error e => (k, .error e)
    | .ok (sk, number) =>
      match as_addrspace k sk number with
      | .error e => (k, .error e)
      | .ok space =>
        match k.handle id with
        | none => (k, .error .EBADF)
        | some _ =>
          (k.modifyHandle id (fun h2 =>
            { h2 with info := { h2.info with
              operation := .awaitingAddrSpaceChange space sp ip } }),
            .ok 24)
  | _, _, _ => (k, .error .EINVAL)

/-- The `Operation::CurrentSigactions` write arm (proc.rs lines 1034-1040). -/
def procWriteCurrentSigactions (k : Kernel) (id : Nat) (buf : List UInt8) :
    Kernel × Except Err Nat :=
  match read_usize buf with
  | .error e => (k, .error e)
  | .ok fd =>
    match extract_scheme_number k fd with
    | .error e => (k, .error e)
    | .ok (sk, number) =>
      match as_sigactions k sk number with
      | .error e => (k, .error e)
      | .ok sa =>
        match k.handle id with
        | none => (k, .error .EBADF)
        | some _ =>
          (k.modifyHandle id (fun h2 =>
            { h2 with info := { h2.info with
              operation := .awaitingSigactionsChange sa } }),
            .ok 8)

/-- The `Operation::MmapMinAddr` write arm (proc.rs lines 1041-1046):
page-aligned value within the user region. -/
def procWriteMmapMinAddr (k : Kernel) (ref : Nat) (buf : List UInt8) :
    Kernel × Except Err Nat :=
  match read_usize buf with
  | .error e => (k, .error e)
  | .ok v =>
    if v % PAGE_SIZE ≠ 0 ∨ v > USER_END_OFFSET then (k, .error .EINVAL)
    else (k.modifyAddrspace ref (fun a => { a with mmap_min := v }), .ok 8)

/-- The `Operation::SchedAffinity` write arm (proc.rs lines 1048-1060): a
`u32` value, `u32::MAX` for the unconstrained set, otherwise a single CPU
`val % cpu_count` — looked up with EBADFD and no Exited check. -/
def procWriteSchedAffinity (k : Kernel) (pid : Nat) (buf : List UInt8) :
    Kernel × Except Err Nat :=
  match read_usize buf with
  | .error e => (k, .error e)
  | .ok w =>
    if w > U32_MAX then (k, .error .EINVAL)
    else
      match k.ctx pid with
      | none => (k, .error .EBADFD)
      | some _ =>
        (k.modifyCtx pid (fun c =>
          { c with sched_affinity :=
            if w = U32_MAX then .all else .single (w % k.cpuCount) }),
          .ok 8)

/-- The operation dispatch of `ProcScheme::kwrite` (proc.rs lines 863-1063),
after `continue_ignored_children` has run on the cloned handle info. -/
def procWriteOp (k : Kernel) (id : Nat) (info : Info) (buf : List UInt8) :
    Option (Kernel × Except Err Nat) :=
  match info.operation with
  | .static _ => some (k, .error .EBADF)
  | .addrspace ref => some (procWriteAddrspace k ref buf)
  | .regs .float => some (procWriteRegsFloat k info.pid buf)
  | .regs .int => procWriteRegsInt k info.pid buf
  | .regs .env => procWriteRegsEnv k info.pid buf
  | .trace => procWriteTrace k info.pid buf
  | .name => some (procWriteName k info.pid buf)
  | .sigstack => some (procWriteSigstack k info.pid buf)
  | .attr a => some (procWriteAttr k info.pid a buf)
  | .filetable _ => some (k, .error .EBADF)
  | .currentFiletable => some (procWriteCurrentFiletable k id buf)
  | .currentAddrSpace => some (procWriteCurrentAddrSpace k id buf)
  | .currentSigactions => some (procWriteCurrentSigactions k id buf)
  | .mmapMinAddr ref => some (procWriteMmapMinAddr k ref buf)
  | .schedAffinity => some (procWriteSchedAffinity k info.pid buf)
  | _ => some (k, .error .EBADF)

/-- Embedding of `ProcScheme::kwrite` (proc.rs lines 854-1064): look the
handle up, drain its ignored clones, and dispatch on the cloned info.
`none` models a panic or an unbounded spin. -/
def procWrite (k : Kernel) (id : Nat) (buf : List UInt8) :
    Option (Kernel × Except Err Nat) :=
  match k.handle id with
  | none => some (k, .error .EBADF)
  | some h => procWriteOp (continue_ignored_children k id) id h.info buf

/-- Little-endian encoding of a value into a fixed number of bytes. -/
def natToLeBytes : Nat → Nat → List UInt8
  | _, 0 => []
  | v, n + 1 => UInt8.ofNat (v % 256) :: natToLeBytes (v / 256) n

/-- Wire encoding of a `GrantDesc` record (spec §6). -/
def encodeGrantDesc (g : GrantModel) : List UInt8 :=
  natToLeBytes g.base 8 ++ natToLeBytes g.size 8
    ++ natToLeBytes g.flags 8 ++ natToLeBytes g.offset 8

/-- Wire encoding of a `PtraceEvent` record: cause, first payload word, and
three unused payload words. -/
def encodePtraceEvent (e : Nat × Nat) : List UInt8 :=
  natToLeBytes e.1 8 ++ natToLeBytes e.2 8 ++ natToLeBytes 0 24

/-- The aarch64 `read_env_regs` (proc.rs lines 378-401): the current context
reads the hardware TLS registers, a foreign context is stopped and its saved
`arch` registers are read. -/
def read_env_regs (k : Kernel) (pid : Nat) : Option (Kernel × Except Err (Nat × Nat)) :=
  if pid = k.curId then some (k, .ok (k.hwTpidrEl0, k.hwTpidrroEl0))
  else try_stop_context k pid (fun c => .ok (c, (c.arch.tpidr_el0, c.arch.tpidrro_el0)))

/-- Embedding of `ProcScheme::fcntl` (proc.rs lines 535-544). -/
def procFcntl (k : Kernel) (id cmd arg : Nat) : Kernel × Except Err Nat :=
  match k.handle id with
  | none => (k, .error .EBADF)
  | some h =>
    if cmd = F_SETFL then
      (k.modifyHandle id (fun h2 => { h2 with info := { h2.info with flags := arg } }),
        .ok 0)
    else if cmd = F_GETFL then (k, .ok h.info.flags)
    else (k, .error .EINVAL)

/-- The static-buffer read arm shared by `Static` and `Filetable` handles
(proc.rs lines 686-695 and 823-829): stream the snapshot from the per-handle
offset.  `none` models the `expect("operations can\x27t change")` panic on
mismatched data. -/
def procReadStatic (k : Kernel) (id : Nat) (bufLen : Nat) :
    Option (Kernel × Except Err (Nat × List UInt8)) :=
  match k.handle id with
  | none => some (k, .error .EBADF)
  | some h =>
    match h.data with
    | .static data off =>
      let src := data.drop off
      let len := min bufLen src.length
      some (k.modifyHandle id (fun h2 => { h2 with data := .static data (off + len) }),
        .ok (len, src.take len))
    | _ => none

/-- The `Operation::Trace` read arm (proc.rs lines 735-779): wait for events
unless O_NONBLOCK, return up to four `PtraceEvent` records, record CLONE
events in the handle's clone list, EAGAIN on a fruitless non-blocking
read. -/
def procReadTrace (k : Kernel) (id : Nat) (info : Info) (bufLen : Nat) :
    Option (Kernel × Except Err (Nat × List UInt8)) :=
  match k.handle id with
  | none => some (k, .error .EBADF)
  | some h =>
    match h.data with
    | .trace clones =>
      match alookup k.sessions info.pid with
      | none => some (k, .error .ENODEV)
      | some s =>
        if info.flags &&& O_NONBLOCK ≠ O_NONBLOCK ∧ s.events.isEmpty ∧ ¬ s.reached then
          none
        else
          match k.ctx info.pid with
          | none => some (k, .error .ESRCH)
          | some c =>
            if c.status.isExited then some (k, .error .ESRCH)
            else
              let slots := min 4 (bufLen / PTRACE_EVENT_SIZE)
              let read := min slots s.events.length
              let taken := s.events.take read
              let k1 := k.modifySession info.pid (fun s2 =>
                { s2 with events := s2.events.drop read })
              let newClones := (taken.filter
                (fun e => decide (e.1 = PTRACE_EVENT_CLONE))).map Prod.snd
              let k2 := k1.modifyHandle id (fun h2 =>
                { h2 with data := .trace (clones ++ newClones) })
              if read = 0 ∧ ¬ s.reached then
                if info.flags &&& O_NONBLOCK = O_NONBLOCK then
                  some (k2, .error .EAGAIN)
                else none
              else
                some (k2, .ok (read * PTRACE_EVENT_SIZE,
                  (taken.map encodePtraceEvent).flatten))
    | _ => none

/-- The `Operation::AddrSpace` read arm (proc.rs lines 780-812): emit up to
16 `GrantDesc` records from the per-handle grant offset (as many as the
buffer holds), advancing the offset by the records read. -/
def procReadAddrspace (k : Kernel) (id ref : Nat) (bufLen : Nat) :
    Option (Kernel × Except Err (Nat × List UInt8)) :=
  match k.handle id with
  | none => some (k, .error .EBADF)
  | some h =>
    match h.data with
    | .offset o =>
      match alookup k.addrspaces ref with
      | none => none
      | some a =>
        let remaining := a.grants.drop o
        let grants_read := min 16 remaining.length
        let emitted := remaining.take (min grants_read (bufLen / GRANT_DESC_SIZE))
        some (k.modifyHandle id (fun h2 => { h2 with data := .offset (o + grants_read) }),
          .ok (grants_read * GRANT_DESC_SIZE, (emitted.map encodeGrantDesc).flatten))
    | _ => some (k, .error .EBADFD)

/-- The `Operation::SchedAffinity` read arm (proc.rs lines 834-846): the
first allowed CPU id, or `usize::MAX` for the unconstrained (empty-mask)
set — looked up with EBADFD and no Exited check. -/
def procReadSchedAffinity (k : Kernel) (pid : Nat) (bufLen : Nat) :
    Kernel × Except Err (Nat × List UInt8) :=
  match k.ctx pid with
  | none => (k, .error .EBADFD)
  | some c =>
    let cpu := match c.sched_affinity with
      | .all => USIZE_MAX
      | .single i => i
    if 8 ≤ bufLen then (k, .ok (8, natToLeBytes cpu 8))
    else (k, .error .EINVAL)

/-- The operation dispatch of `ProcScheme::kread` (proc.rs lines 685-852). -/
def procReadOp (k : Kernel) (id : Nat) (info : Info) (bufLen : Nat) :
    Option (Kernel × Except Err (Nat × List UInt8)) :=
  match info.operation with
  | .static _ => procReadStatic k id bufLen
  | .regs .float =>
    match with_context k info.pid (fun c => .ok c.kfx) with
    | .error e => some (k, .error e)
    | .ok v =>
      let len := min bufLen FLOAT_REGS_SIZE
      some (k, .ok (len, (natToLeBytes v FLOAT_REGS_SIZE).take len))
  | .regs .int =>
    match try_stop_context k info.pid (fun c =>
        match c.regs with
        | none => .error .ENOTRECOVERABLE
        | some r => .ok (c, r.payload)) with
    | none => none
    | some (k1, .error e) => some (k1, .error e)
    | some (k1, .ok v) =>
      let len := min bufLen INT_REGS_SIZE
      some (k1, .ok (len, (natToLeBytes v INT_REGS_SIZE).take len))
  | .regs .env =>
    match read_env_regs k info.pid with
    | none => none
    | some (k1, .error e) => some (k1, .error e)
    | some (k1, .ok (w0, w1)) =>
      let len := min bufLen ENV_REGS_SIZE
      some (k1, .ok (len, (natToLeBytes w0 8 ++ natToLeBytes w1 8).take len))
  | .trace => procReadTrace k id info bufLen
  | .addrspace ref => procReadAddrspace k id ref bufLen
  | .name =>
    match k.ctx info.pid with
    | none => some (k, .error .ESRCH)
    | some c =>
      let len := min bufLen c.name.length
      some (k, .ok (len, c.name.take len))
  | .sigstack =>
    match k.ctx info.pid with
    | none => some (k, .error .ESRCH)
    | some c =>
      let v := c.sigstack.getD USIZE_MAX
      let len := min bufLen 8
      some (k, .ok (len, (natToLeBytes v 8).take len))
  | .attr a =>
    match k.ctx info.pid with
    | none => some (k, .error .ESRCH)
    | some c =>
      let bytes := (toString (match a with | .uid => c.euid | .gid => c.egid)).toUTF8.toList
      let len := min bufLen bytes.length
      some (k, .ok (len, bytes.take len))
  | .filetable _ => procReadStatic k id bufLen
  | .mmapMinAddr ref =>
    match alookup k.addrspaces ref with
    | none => none
    | some a =>
      if 8 ≤ bufLen then some (k, .ok (8, natToLeBytes a.mmap_min 8))
      else some (k, .error .EINVAL)
  | .schedAffinity => some (procReadSchedAffinity k info.pid bufLen)
  | _ => some (k, .error .EBADF)

/-- Embedding of `ProcScheme::kread` (proc.rs lines 677-853).  The writable
user buffer is represented by its length; the result carries the returned
byte count and the bytes produced.  `none` models a panic or an unbounded
block or spin. -/
def procRead (k : Kernel) (id : Nat) (bufLen : Nat) :
    Option (Kernel × Except Err (Nat × List UInt8)) :=
  match k.handle id with
  | none => some (k, .error .EBADF)
  | some h => procReadOp k id h.info bufLen

/-- Fuel-bounded ancestor chain of the context table (`contexts().ancestors`,
outside src/ but fully determined by the `ppid` links): the ids reached by
following `ppid` from the given id while the contexts exist.  A fuel of
table-size + 1 covers every acyclic chain. -/
def ancestorIds (tbl : List (Nat × Context)) : Nat → Nat → List Nat
  | _, 0 => []
  | pid, fuel + 1 =>
    match alookup tbl pid with
    | none => []
    | some c => pid :: ancestorIds tbl c.ppid fuel

/-- Which proc operations require the child-process relation (proc.rs lines
150-152). -/
def Operation.needs_child_process : Operation → Bool
  | .regs _ => true
  | .trace => true
  | .filetable _ => true
  | .addrspace _ => true
  | .currentAddrSpace => true
  | .currentFiletable => true
  | .sigactions _ => true
  | .currentSigactions => true
  | .awaitingSigactionsChange _ => true
  | _ => false

/-- Which proc operations require root (proc.rs lines 153-155). -/
def Operation.needs_root : Operation → Bool
  | .attr _ => true
  | _ => false

/-- The operation-string parse of `open_inner` (proc.rs lines 269-289),
resolving the `Arc` payloads to store ids. -/
def parseOperation (k : Kernel) (pid : Nat) (op_str : Option String) :
    Except Err Operation :=
  match op_str with
  | none => .error .EINVAL
  | some s =>
    if s = "addrspace" then
      match k.ctx pid with
      | none => .error .ENOENT
      | some c =>
        match c.addr_space with
        | some r => .ok (.addrspace r)
        | none => .error .ENOENT
    else if s = "filetable" then
      match k.ctx pid with
      | none => .error .ENOENT
      | some c => .ok (.filetable c.files)
    else if s = "current-addrspace" then .ok .currentAddrSpace
    else if s = "current-filetable" then .ok .currentFiletable
    else if s = "regs/float" then .ok (.regs .float)
    else if s = "regs/int" then .ok (.regs .int)
    else if s = "regs/env" then .ok (.regs .env)
    else if s = "trace" then .ok .trace
    else if s = "exe" then .ok (.static "exe")
    else if s = "name" then .ok .name
    else if s = "sigstack" then .ok .sigstack
    else if s = "uid" then .ok (.attr .uid)
    else if s = "gid" then .ok (.attr .gid)
    else if s = "open_via_dup" then .ok .openViaDup
    else if s = "sigactions" then
      match k.ctx pid with
      | none => .error .ENOENT
      | some c => .ok (.sigactions c.actions)
    else if s = "current-sigactions" then .ok .currentSigactions
    else if s = "mmap-min-addr" then
      match k.ctx pid with
      | none => .error .ENOENT
      | some c =>
        match c.addr_space with
        | some r => .ok (.mmapMinAddr r)
        | none => .error .ENOENT
    else if s = "sched-affinity" then .ok .schedAffinity
    else .error .EINVAL

/-- The security check of `open_inner` (proc.rs lines 312-338): needs-child
operations are checked only when both `uid` and `gid` are non-zero, and then
require a foreign target to share the effective uid or gid and to have the
caller among its ancestors; needs-root operations require uid 0 and gid 0. -/
def openSecurityCheck (k : Kernel) (operation : Operation) (target : Context)
    (uid gid : Nat) : Except Err Unit :=
  if operation.needs_child_process ∧ uid ≠ 0 ∧ gid ≠ 0 then
    match k.ctx k.curId with
    | none => .error .ESRCH
    | some current =>
      if target.id ≠ current.id then
        if uid ≠ target.euid ∧ gid ≠ target.egid then .error .EPERM
        else if (ancestorIds k.contexts target.ppid (k.contexts.length + 1)).contains
            current.id then .ok ()
        else .error .EPERM
      else .ok ()
  else if operation.needs_root ∧ (uid ≠ 0 ∨ gid ≠ 0) then .error .EPERM
  else .ok ()

/-- The filetable listing snapshot taken at open (proc.rs lines 340-350): the
occupied descriptor indices, one decimal number per line. -/
def filetableListing (files : List (Option FileDesc)) : List UInt8 :=
  ((files.enum.filterMap (fun p => p.2.map (fun _ => p.1))).map
    (fun i => (toString i ++ "\n").toUTF8.toList)).flatten

/-- Embedding of `ProcScheme::open_inner` (proc.rs lines 268-376): parse the
operation, check the target exists and has not exited, apply the security
policy, initialise the handle data, allocate the handle id, and for trace
handles register the ptrace session (EBUSY when one exists, target stopped
under O_TRUNC). -/
def open_inner (k : Kernel) (pid : Nat) (op_str : Option String)
    (flags uid gid : Nat) : Except Err (Kernel × Nat) :=
  match parseOperation k pid op_str with
  | .error e => .error e
  | .ok operation =>
    match k.ctx pid with
    | none => .error .ESRCH
    | some target =>
      let data : OperationData :=
        match operation with
        | .trace => .trace []
        | .static _ => .static target.name 0
        | .addrspace _ => .offset 0
        | _ => .other
      if target.status.isExited then .error .ESRCH
      else
        match openSecurityCheck k operation target uid gid with
        | .error e => .error e
        | .ok () =>
          let data2 := match operation with
            | .filetable r =>
              OperationData.static
                (filetableListing ((alookup k.filetables r).getD [])) 0
            | _ => data
          let hid := k.nextHandleId
          let k1 := { k with
            handles := (ainsert k.handles hid ⟨⟨pid, flags, operation⟩, data2⟩).1,
            nextHandleId := hid + 1 }
          if operation = .trace then
            if (alookup k1.sessions pid).isSome then .error .EBUSY
            else
              let k2 := { k1 with
                sessions := (ainsert k1.sessions pid ⟨none, [], false⟩).1 }
              let k3 := if flags &&& O_TRUNC = O_TRUNC then
                  k2.modifyCtx pid (fun c => { c with ptrace_stop := true })
                else k2
              .ok (k3, hid)
          else .ok (k1, hid)

/-- A context that has exited. -/
def exitedCtx : Context := { sampleCtx with id := 2, status := .exited 0 }

/-- Kernel state with an exited context 2 behind a `sigstack` handle 0 and a
`regs/float` handle 1. -/
def kc4 : Kernel where
  contexts := [(1, sampleCtx), (2, exitedCtx)]
  curId := 1
  cpuCount := 1
  handles := [(0, ⟨⟨2, 0, .sigstack⟩, .other⟩), (1, ⟨⟨2, 0, .regs .float⟩, .other⟩)]
  nextHandleId := 2
  filetables := []
  addrspaces := []
  sessions := []
  schemes := []
  hwTpidrEl0 := 0
  hwTpidrroEl0 := 0

/-- C4 counterexample: context 2 of `kc4` has status `Exited(0)`, yet a write
through its `sigstack` handle — a proc operation other than close — succeeds
with the full byte count and mutates the exited context's `sigstack` field,
because the Name/Sigstack/Attr/sched-affinity arms of `kwrite` look the
context up without the Exited check of `with_context`. -/
theorem c4_exited_write_counterexample :
    (procWrite kc4 0 (natToLeBytes 4096 8)).map
        (fun r => (r.2, (r.1.ctx 2).map Context.sigstack))
      = some (.ok 8, some (some 4096))
    ∧ (kc4.ctx 2).map Context.status = some (.exited 0)
    ∧ (kc4.ctx 2).map Context.sigstack = some none :=
  ⟨rfl, rfl, rfl⟩


theorem natToLeBytes_length (v n : Nat) : (natToLeBytes v n).length = n := by
  induction n generalizing v with
  | zero => rfl
  | succ n ih => simp [natToLeBytes, ih]

theorem leBytesToNat_natToLeBytes (v n : Nat) :
    leBytesToNat (natToLeBytes v n) = v % 256 ^ n := by
  induction n generalizing v with
  | zero => simp [natToLeBytes, leBytesToNat, Nat.mod_one]
  | succ n ih =>
    simp only [natToLeBytes, leBytesToNat, List.foldr_cons]
    have h1 : (UInt8.ofNat (v % 256)).toNat = v % 256 % 256 := rfl
    rw [show (List.foldr (fun b acc => b.toNat + 256 * acc) 0 (natToLeBytes (v / 256) n))
        = leBytesToNat (natToLeBytes (v / 256) n) from rfl, ih, h1,
      Nat.pow_succ, Nat.mul_comm (256 ^ n) 256, Nat.mod_mul, Nat.mod_mod_of_dvd]
    omega

theorem read_usize_natToLeBytes (v : Nat) (hv : v < 2 ^ 64) :
    read_usize (natToLeBytes v 8) = .ok v := by
  have hlen : (natToLeBytes v 8).length = 8 := natToLeBytes_length v 8
  simp [read_usize, hlen, List.take_of_length_le (le_of_eq hlen),
    leBytesToNat_natToLeBytes]
  omega

/-- A buffer of at least 16 bytes always yields its first two machine
words through the `usizes` iterator. -/
theorem usizes_two_words (buf : List UInt8) (h : 16 ≤ buf.length) :
    wordAt (usizes buf) 0 = .ok (leBytesToNat (buf.take 8))
    ∧ wordAt (usizes buf) 1 = .ok (leBytesToNat ((buf.drop 8).take 8)) := by
  have h1 : usizes buf = leBytesToNat (buf.take 8) :: usizes (buf.drop 8) := by
    rw [usizes, dif_pos (by omega)]
  have h2 : usizes (buf.drop 8)
      = leBytesToNat ((buf.drop 8).take 8) :: usizes ((buf.drop 8).drop 8) := by
    rw [usizes, dif_pos (by simp [List.length_drop]; omega)]
  rw [h1, h2]
  exact ⟨rfl, rfl⟩

/-- C4 (amended): proc operations that reach the target through
`with_context` / `with_context_mut` / `try_stop_context` fail with ESRCH on
an Exited (necessarily foreign) context and do not mutate it: open under any
operation string that parses, the register reads and writes (`regs/float`
via `with_context` / `with_context_mut`, `regs/int` and foreign `regs/env`
via `try_stop_context`), and the trace write — which still records the
session breakpoint but touches no context.  The Name, Sigstack, Attr and
sched-affinity reads and writes, static reads and fcntl do not perform that
check and can succeed on (and mutate) an exited context, as the
counterexample shows. -/
theorem c4_exited_with_context_ops_esrch (k : Kernel) (pid : Nat) (c : Context)
    (hidF hidI hidE hidT fF fI fE fT flags uid gid : Nat)
    (op_str : Option String) (op : Operation) (s : SessionModel)
    (buf : List UInt8) (w bufLen : Nat)
    (hc : k.ctx pid = some c) (hex : c.status.isExited = true)
    (hcur : pid ≠ k.curId)
    (hparse : parseOperation k pid op_str = .ok op)
    (hhF : k.handle hidF = some ⟨⟨pid, fF, .regs .float⟩, .other⟩)
    (hhI : k.handle hidI = some ⟨⟨pid, fI, .regs .int⟩, .other⟩)
    (hhE : k.handle hidE = some ⟨⟨pid, fE, .regs .env⟩, .other⟩)
    (hhT : k.handle hidT = some ⟨⟨pid, fT, .trace⟩, .trace []⟩)
    (hsess : alookup k.sessions pid = some s)
    (hfl : FLOAT_REGS_SIZE ≤ buf.length) (hil : INT_REGS_SIZE ≤ buf.length)
    (hel : ENV_REGS_SIZE ≤ buf.length)
    (hw : ptraceFlagsValid w = true) (hwlt : w < 2 ^ 64) :
    open_inner k pid op_str flags uid gid = .error .ESRCH
    ∧ procWrite k hidF buf = some (k, .error .ESRCH)
    ∧ procRead k hidF bufLen = some (k, .error .ESRCH)
    ∧ procWrite k hidI buf = some (k, .error .ESRCH)
    ∧ procRead k hidI bufLen = some (k, .error .ESRCH)
    ∧ procWrite k hidE buf = some (k, .error .ESRCH)
    ∧ procRead k hidE bufLen = some (k, .error .ESRCH)
    ∧ (∃ k2, procWrite k hidT (natToLeBytes w 8) = some (k2, .error .ESRCH)
        ∧ k2.contexts = k.contexts) := by
  obtain ⟨hw0, hw1⟩ := usizes_two_words buf (by simpa [ENV_REGS_SIZE] using hel)
  have hru : read_usize (natToLeBytes w 8) = .ok w := read_usize_natToLeBytes w hwlt
  refine ⟨?_, ?_, ?_, ?_, ?_, ?_, ?_, ?_⟩
  · simp [open_inner, hparse, hc, hex]
  · simp [procWrite, procWriteOp, hhF, continue_ignored_children,
      procWriteRegsFloat, with_context_mut, hc, hex, hfl]
  · simp [procRead, procReadOp, hhF, with_context, hc, hex]
  · simp [procWrite, procWriteOp, hhI, continue_ignored_children,
      procWriteRegsInt, hil, try_stop_context, with_context_mut, hc, hex, hcur]
  · simp [procRead, procReadOp, hhI, try_stop_context, with_context_mut,
      hc, hex, hcur]
  · simp [procWrite, procWriteOp, hhE, continue_ignored_children,
      procWriteRegsEnv, hel, hw0, hw1, write_env_regs, hcur,
      try_stop_context, with_context_mut, hc, hex]
  · simp [procRead, procReadOp, hhE, read_env_regs, hcur, try_stop_context,
      with_context_mut, hc, hex]
  · refine ⟨traceSetBreakpoint
      (k.modifyHandle hidT (fun h2 => { h2 with data := .trace [] })) pid w,
      ?_, rfl⟩
    have hcic : continue_ignored_children k hidT
        = k.modifyHandle hidT (fun h2 => { h2 with data := .trace [] }) := by
      simp [continue_ignored_children, hhT]
    by_cases hss : w &&& PTRACE_STOP_SINGLESTEP = 0
    · simp [procWrite, procWriteOp, hhT, hcic, procWriteTrace, hru, hw,
        traceSetBreakpoint, traceSinglestepStep, hss, with_context_mut,
        Kernel.ctx, Kernel.modifyHandle, Kernel.modifySession,
        show alookup k.contexts pid = some c from hc, hex, hsess]
    · simp [procWrite, procWriteOp, hhT, hcic, procWriteTrace, hru, hw,
        traceSetBreakpoint, traceSinglestepStep, hss, try_stop_context, hcur,
        with_context_mut, Kernel.ctx, Kernel.modifyHandle, Kernel.modifySession,
        show alookup k.contexts pid = some c from hc, hex, hsess]

/-- Kernel state for the C4 witness: exited context 2 behind `regs/float`,
`regs/int`, `regs/env` and `trace` handles, with a ptrace session. -/
def kc4b : Kernel :=
  { kc4 with
    handles := [(0, ⟨⟨2, 0, .sigstack⟩, .other⟩),
                (1, ⟨⟨2, 0, .regs .float⟩, .other⟩),
                (2, ⟨⟨2, 0, .regs .int⟩, .other⟩),
                (3, ⟨⟨2, 0, .regs .env⟩, .other⟩),
                (4, ⟨⟨2, 0, .trace⟩, .trace []⟩)],
    nextHandleId := 5,
    sessions := [(2, ⟨none, [], false⟩)] }

/-- Witness for the amended C4 theorem on the concrete kernel `kc4b`. -/
theorem c4_exited_with_context_ops_esrch_witness :
    open_inner kc4b 2 (some "regs/int") 0 0 0 = .error .ESRCH
    ∧ procWrite kc4b 1 (List.replicate 512 0) = some (kc4b, .error .ESRCH)
    ∧ procRead kc4b 1 8 = some (kc4b, .error .ESRCH)
    ∧ procWrite kc4b 2 (List.replicate 512 0) = some (kc4b, .error .ESRCH)
    ∧ procRead kc4b 2 8 = some (kc4b, .error .ESRCH)
    ∧ procWrite kc4b 3 (List.replicate 512 0) = some (kc4b, .error .ESRCH)
    ∧ procRead kc4b 3 8 = some (kc4b, .error .ESRCH)
    ∧ (∃ k2, procWrite kc4b 4 (natToLeBytes 0 8) = some (k2, .error .ESRCH)
        ∧ k2.contexts = kc4b.contexts) :=
  c4_exited_with_context_ops_esrch kc4b 2 exitedCtx 1 2 3 4 0 0 0 0 0 0 0
    (some "regs/int") (.regs .int) ⟨none, [], false⟩
    (List.replicate 512 0) 0 8
    rfl rfl (by decide) rfl rfl rfl rfl rfl rfl
    (by simp [FLOAT_REGS_SIZE]) (by simp [INT_REGS_SIZE])
    (by simp [ENV_REGS_SIZE]) (by decide) (by norm_num)

theorem ctx_modifyCtx (k : Kernel) (pid pid2 : Nat) (f : Context → Context) :
    (k.modifyCtx pid f).ctx pid2
      = if pid2 = pid then (k.ctx pid).map f else k.ctx pid2 := by
  simp [Kernel.ctx, Kernel.modifyCtx, alookup_amodify]

theorem c7_sched_affinity_roundtrip (k : Kernel) (hid pid : Nat) (h : Handle)
    (c : Context) (v bufLen : Nat)
    (hh : k.handle hid = some h) (hdata : h.data = .other)
    (hop : h.info.operation = .schedAffinity) (hpid : h.info.pid = pid)
    (hc : k.ctx pid = some c) (hv : v ≤ U32_MAX) (hbuf : 8 ≤ bufLen) :
    ∃ k2 out,
      procWrite k hid (natToLeBytes v 8) = some (k2, .ok 8)
      ∧ procRead k2 hid bufLen = some (k2, .ok (8, out))
      ∧ leBytesToNat out = (if v = U32_MAX then USIZE_MAX else v % k.cpuCount) := by
  have hcic : continue_ignored_children k hid = k := by
    simp [continue_ignored_children, hh, hdata]
  have hru : read_usize (natToLeBytes v 8) = .ok v :=
    read_usize_natToLeBytes v (by simp [U32_MAX] at hv; omega)
  have hnv : ¬ v > U32_MAX := not_lt.mpr hv
  set aff : LogicalCpuSet := if v = U32_MAX then .all else .single (v % k.cpuCount)
    with haff
  set k2 := k.modifyCtx pid (fun c0 => { c0 with sched_affinity := aff }) with hk2
  have hwrite : procWrite k hid (natToLeBytes v 8) = some (k2, .ok 8) := by
    simp [procWrite, procWriteOp, hh, hcic, hop, hpid, procWriteSchedAffinity,
      hru, hnv, hc, hk2, haff]
  have hh2 : k2.handle hid = some h := hh
  have hc2 : k2.ctx pid = some { c with sched_affinity := aff } := by
    rw [hk2, ctx_modifyCtx]
    simp [hc]
  have hcpuv : (if v = U32_MAX then USIZE_MAX else v % k.cpuCount) < 2 ^ 64 := by
    split
    · simp [USIZE_MAX, USIZE_BITS]
    · have : v % k.cpuCount ≤ v := Nat.mod_le v k.cpuCount
      simp [U32_MAX] at hv
      omega
  refine ⟨k2, natToLeBytes (if v = U32_MAX then USIZE_MAX else v % k.cpuCount) 8,
    hwrite, ?_, ?_⟩
  · simp [procRead, procReadOp, hh2, hop, hpid, procReadSchedAffinity, hc2, hbuf,
      haff]
    split
    · rename_i x heq
      by_cases hvm : v = U32_MAX
      · simp [hvm]
      · simp [hvm] at heq
    · rename_i x a heq
      by_cases hvm : v = U32_MAX
      · simp [hvm] at heq
      · simp [hvm] at heq ⊢
        rw [heq]
  · rw [leBytesToNat_natToLeBytes]
    exact Nat.mod_eq_of_lt (by simpa using hcpuv)

/-- Kernel state with a live context 1 behind a `sched-affinity` handle 0 and
two CPUs. -/
def kc7 : Kernel where
  contexts := [(1, sampleCtx)]
  curId := 1
  cpuCount := 2
  handles := [(0, ⟨⟨1, 0, .schedAffinity⟩, .other⟩)]
  nextHandleId := 1
  filetables := []
  addrspaces := []
  sessions := []
  schemes := []
  hwTpidrEl0 := 0
  hwTpidrroEl0 := 0

/-- Witness for C7 on the concrete kernel `kc7` (two CPUs): writing
`u32::MAX` reads back `usize::MAX`, and writing 5 reads back `5 mod 2`. -/
theorem c7_sched_affinity_roundtrip_witness :
    (∃ k2 out, procWrite kc7 0 (natToLeBytes U32_MAX 8) = some (k2, .ok 8)
      ∧ procRead k2 0 8 = some (k2, .ok (8, out))
      ∧ leBytesToNat out = USIZE_MAX)
    ∧ (∃ k2 out, procWrite kc7 0 (natToLeBytes 5 8) = some (k2, .ok 8)
      ∧ procRead k2 0 8 = some (k2, .ok (8, out))
      ∧ leBytesToNat out = 5 % 2) := by
  constructor
  · obtain ⟨k2, out, hw, hr, hv⟩ :=
      c7_sched_affinity_roundtrip kc7 0 1 ⟨⟨1, 0, .schedAffinity⟩, .other⟩ sampleCtx
        U32_MAX 8 rfl rfl rfl rfl rfl (le_refl _) (by norm_num)
    exact ⟨k2, out, hw, hr, by simpa using hv⟩
  · obtain ⟨k2, out, hw, hr, hv⟩ :=
      c7_sched_affinity_roundtrip kc7 0 1 ⟨⟨1, 0, .schedAffinity⟩, .other⟩ sampleCtx
        5 8 rfl rfl rfl rfl rfl (by norm_num [U32_MAX]) (by norm_num)
    refine ⟨k2, out, hw, hr, ?_⟩
    rw [hv]
    norm_num [U32_MAX, kc7]

/-- Target context of the C9 counterexample: effective uid 6 and gid 7, and a
parent chain (ppid 0, unallocated) that does not contain the caller. -/
def kc9target : Context := { sampleCtx with id := 2, euid := 6, egid := 7, ppid := 0 }

/-- Kernel of the C9 counterexample: the caller is context 1, the foreign
target is context 2. -/
def kc9 : Kernel where
  contexts := [(1, sampleCtx), (2, kc9target)]
  curId := 1
  cpuCount := 1
  handles := []
  nextHandleId := 0
  filetables := []
  addrspaces := []
  sessions := []
  schemes := []
  hwTpidrEl0 := 0
  hwTpidrroEl0 := 0

/-- The kernel state after the bypassed open of the C9 counterexample: the
`regs/int` handle has been allocated. -/
def kc9afterOpen : Kernel :=
  { kc9 with handles := [(0, ⟨⟨2, 0, .regs .int⟩, .other⟩)], nextHandleId := 1 }

/-- C9 counterexample: a caller with uid 5 and gid 0 — not root, not sharing
either effective id with the target, and not an ancestor — opens the
needs-child `proc:2/regs/int` successfully instead of receiving EPERM: the
security check only runs when both uid and gid are non-zero. -/
theorem c9_gid_zero_bypass_counterexample :
    open_inner kc9 2 (some "regs/int") 0 5 0 = .ok (kc9afterOpen, 0)
    ∧ (5 : Nat) ≠ 0
    ∧ kc9target.euid ≠ 5 ∧ kc9target.egid ≠ 0
    ∧ (ancestorIds kc9.contexts kc9target.ppid (kc9.contexts.length + 1)).contains 1
        = false :=
  ⟨rfl, by decide, by decide, by decide, rfl⟩

/-- C9 (amended): the needs-child security check of `open_inner` runs only
when the caller has both uid and gid non-zero — a caller with uid 0 or gid 0
bypasses it entirely, as the counterexample shows — and, when it runs against
a foreign target, it returns EPERM whenever the caller shares neither the
target's effective uid nor its effective gid, and also whenever the caller is
not an ancestor of the target; so every needs-child open by a caller with uid
and gid non-zero that fails either the ownership or the ancestry condition
receives EPERM. -/
theorem c9_needs_child_eperm (k : Kernel) (pid flags uid gid : Nat)
    (op_str : Option String) (op : Operation) (target cur : Context)
    (hparse : parseOperation k pid op_str = .ok op)
    (hnc : op.needs_child_process = true)
    (ht : k.ctx pid = some target) (hex : target.status.isExited = false)
    (hcur : k.ctx k.curId = some cur) (hne : target.id ≠ cur.id)
    (hu : uid ≠ 0) (hg : gid ≠ 0)
    (hfail : (uid ≠ target.euid ∧ gid ≠ target.egid)
      ∨ (ancestorIds k.contexts target.ppid (k.contexts.length + 1)).contains
          cur.id = false) :
    open_inner k pid op_str flags uid gid = .error .EPERM := by
  have hsec : openSecurityCheck k op target uid gid = .error .EPERM := by
    unfold openSecurityCheck
    rw [if_pos ⟨hnc, hu, hg⟩, hcur]
    dsimp only
    rw [if_pos hne]
    rcases hfail with ⟨h1, h2⟩ | hanc
    · rw [if_pos ⟨h1, h2⟩]
    · by_cases hshare : uid ≠ target.euid ∧ gid ≠ target.egid
      · rw [if_pos hshare]
      · rw [if_neg hshare, if_neg (by simpa using hanc)]
  simp [open_inner, hparse, ht, hex, hsec]

/-- Target context for the ancestry half of the C9 witness: it shares
effective uid 5 with the caller but its parent chain (ppid 0, unallocated)
does not contain the caller. -/
def kc9shared : Context := { sampleCtx with id := 2, euid := 5, egid := 9, ppid := 0 }

/-- Kernel for the ancestry half of the C9 witness. -/
def kc9b : Kernel := { kc9 with contexts := [(1, sampleCtx), (2, kc9shared)] }

/-- Witness for the amended C9 theorem: on `kc9` a caller with uid 5 and
gid 5 shares neither effective id and receives EPERM, and on `kc9b` a caller
with uid 5 and gid 7 shares the target's effective uid but is not an
ancestor, and also receives EPERM. -/
theorem c9_needs_child_eperm_witness :
    open_inner kc9 2 (some "regs/int") 0 5 5 = .error .EPERM
    ∧ open_inner kc9b 2 (some "regs/int") 0 5 7 = .error .EPERM :=
  ⟨c9_needs_child_eperm kc9 2 0 5 5 (some "regs/int") (.regs .int)
      kc9target sampleCtx rfl rfl rfl rfl rfl (by decide) (by decide) (by decide)
      (Or.inl ⟨by decide, by decide⟩),
   c9_needs_child_eperm kc9b 2 0 5 7 (some "regs/int") (.regs .int)
      kc9shared sampleCtx rfl rfl rfl rfl rfl (by decide) (by decide) (by decide)
      (Or.inr rfl)⟩

/-- A debug-scheme handle: just its flags (debug.rs, `Handle`). -/
structure DebugHandle where
  flags : Nat
  deriving DecidableEq, Repr

/-- Modelled from the spec: the `in_variable_chunks` iterator of usercopy —
successive chunks of at most `sz` bytes. -/
def chunksOf (sz : Nat) (l : List UInt8) : List (List UInt8) :=
  if _h : l = [] ∨ sz = 0 then []
  else l.take sz :: chunksOf sz (l.drop sz)
termination_by l.length
decreasing_by
  simp [List.length_drop]
  rcases Nat.eq_zero_or_pos sz with h0 | h0
  · simp_all
  · have : l.length ≠ 0 := by simp_all
    omega

/-- Embedding of `DebugScheme::kwrite` (debug.rs lines 121-140): the handle
must exist; each chunk of the input is copied into the 512-byte bounce
buffer and written to a fresh serial writer; the return value is the full
input length.  The second component collects the bytes the serial writers
received. -/
def debug_kwrite (handles : List (Nat × DebugHandle)) (id : Nat)
    (buf : List UInt8) : Except Err (Nat × List UInt8) :=
  match alookup handles id with
  | none => .error .EBADF
  | some _ =>
    .ok (buf.length, ((chunksOf 512 buf).map (fun chunk => chunk.take 512)).flatten)

theorem chunksOf_take_flatten (sz : Nat) (hsz : 0 < sz) (l : List UInt8) :
    ((chunksOf sz l).map (fun c => c.take sz)).flatten = l := by
  generalize hn : l.length = n
  induction n using Nat.strong_induction_on generalizing l with
  | _ n ih =>
    rw [chunksOf]
    split
    · rename_i hcond
      rcases hcond with h | h
      · simp [h]
      · omega
    · rename_i hcond
      push_neg at hcond
      obtain ⟨hne, _⟩ := hcond
      simp only [List.map_cons, List.flatten_cons]
      rw [List.take_take, min_self]
      have hlen : (l.drop sz).length < n := by
        have h1 : l.length ≠ 0 := fun hz => hne (List.length_eq_zero.mp hz)
        simp [List.length_drop]
        omega
      rw [ih (l.drop sz).length hlen (l.drop sz) rfl]
      exact List.take_append_drop sz l

/-- C10: a successful write through an open debug handle returns exactly the
full length of the input buffer — never a partial count — and delivers
exactly the input bytes to the serial writers, even though the copy goes
through a 512-byte bounce buffer in chunks. -/
theorem c10_debug_write_full_length (handles : List (Nat × DebugHandle))
    (id : Nat) (h : DebugHandle) (buf : List UInt8)
    (hh : alookup handles id = some h) :
    debug_kwrite handles id buf = .ok (buf.length, buf) := by
  simp [debug_kwrite, hh, chunksOf_take_flatten 512 (by norm_num) buf]

/-- Witness for C10: a 700-byte write through handle 0 returns 700. -/
theorem c10_debug_write_full_length_witness :
    debug_kwrite [(0, ⟨0⟩)] 0 (List.replicate 700 65)
      = .ok (700, List.replicate 700 65) := by
  have := c10_debug_write_full_length [(0, ⟨0⟩)] 0 ⟨0⟩ (List.replicate 700 65) rfl
  simpa using this

theorem handle_modifyHandle (k : Kernel) (i j : Nat) (f : Handle → Handle) :
    (k.modifyHandle i f).handle j
      = if j = i then (k.handle i).map f else k.handle j := by
  simp [Kernel.handle, Kernel.modifyHandle, alookup_amodify]

/-- A kernel transformation that keeps every handle present with its
operation tag unchanged. -/
def preservesOps (k k2 : Kernel) : Prop :=
  ∀ hid h, k.handle hid = some h →
    ∃ h2, k2.handle hid = some h2 ∧ h2.info.operation = h.info.operation

theorem preservesOps_of_handles_eq {k k2 : Kernel} (heq : k2.handles = k.handles) :
    preservesOps k k2 := by
  intro hid h0 hh
  refine ⟨h0, ?_, rfl⟩
  rw [Kernel.handle, heq]
  exact hh

theorem preservesOps_refl (k : Kernel) : preservesOps k k :=
  preservesOps_of_handles_eq rfl

theorem preservesOps_trans {k1 k2 k3 : Kernel}
    (a : preservesOps k1 k2) (b : preservesOps k2 k3) : preservesOps k1 k3 := by
  intro hid h0 hh
  obtain ⟨h1, hh1, hop1⟩ := a hid h0 hh
  obtain ⟨h2, hh2, hop2⟩ := b hid h1 hh1
  exact ⟨h2, hh2, hop2.trans hop1⟩

theorem preservesOps_modifyHandle (k : Kernel) (i : Nat) (f : Handle → Handle)
    (hf : ∀ h, (f h).info.operation = h.info.operation) :
    preservesOps k (k.modifyHandle i f) := by
  intro hid h0 hh
  rw [handle_modifyHandle]
  by_cases hji : hid = i
  · subst hji
    rw [if_pos rfl, hh]
    exact ⟨f h0, rfl, hf h0⟩
  · rw [if_neg hji]
    exact ⟨h0, hh, rfl⟩

theorem with_context_mut_handles {α : Type} (k : Kernel) (pid : Nat)
    (f : Context → Except Err (Context × α)) :
    (with_context_mut k pid f).1.handles = k.handles := by
  unfold with_context_mut
  cases hc : k.ctx pid with
  | none => rfl
  | some c =>
    by_cases hex : c.status.isExited
    · simp [hex]
    · simp only [hex]
      cases hf : f c with
      | error e => simp
      | ok p => simp [Kernel.modifyCtx]

theorem try_stop_context_handles {α : Type} (k : Kernel) (pid : Nat)
    (f : Context → Except Err (Context × α)) (k2 : Kernel) (r : Except Err α)
    (h : try_stop_context k pid f = some (k2, r)) :
    k2.handles = k.handles := by
  unfold try_stop_context at h
  by_cases hp : pid = k.curId
  · rw [if_pos hp] at h
    obtain ⟨rfl, rfl⟩ := Prod.mk.injEq .. ▸ Option.some.inj h
    rfl
  · rw [if_neg hp] at h
    cases hm : with_context_mut k pid
        (fun c => .ok ({ c with ptrace_stop := true }, (c.ptrace_stop, c.running))) with
    | mk k1 res =>
      have hk1 : k1.handles = k.handles := by
        have := with_context_mut_handles k pid
          (fun c => Except.ok ({ c with ptrace_stop := true }, (c.ptrace_stop, c.running)))
        rw [hm] at this
        exact this
      rw [hm] at h
      cases res with
      | error e =>
        simp only at h
        obtain ⟨rfl, rfl⟩ := Prod.mk.injEq .. ▸ Option.some.inj h
        exact hk1
      | ok p =>
        obtain ⟨was, running⟩ := p
        simp only at h
        by_cases hr : running
        · rw [if_pos hr] at h
          exact absurd h (by simp)
        · rw [if_neg hr] at h
          cases hm2 : with_context_mut k1 pid (fun c =>
              match f c with
              | .error e => .ok ({ c with ptrace_stop := was }, Except.error e)
              | .ok (c2, a) => .ok ({ c2 with ptrace_stop := was }, Except.ok a)) with
          | mk k3 res2 =>
            have hk3 : k3.handles = k1.handles := by
              have := with_context_mut_handles k1 pid (fun c =>
                match f c with
                | .error e => .ok ({ c with ptrace_stop := was }, Except.error e)
                | .ok (c2, a) => .ok ({ c2 with ptrace_stop := was }, Except.ok a))
              rw [hm2] at this
              exact this
            rw [hm2] at h
            cases res2 with
            | ok inner =>
              simp only at h
              obtain ⟨rfl, rfl⟩ := Prod.mk.injEq .. ▸ Option.some.inj h
              exact hk3.trans hk1
            | error e =>
              simp only at h
              obtain ⟨rfl, rfl⟩ := Prod.mk.injEq .. ▸ Option.some.inj h
              exact hk3.trans hk1

theorem write_env_regs_handles (k : Kernel) (pid w0 w1 : Nat) (k2 : Kernel)
    (r : Except Err Unit) (h : write_env_regs k pid w0 w1 = some (k2, r)) :
    k2.handles = k.handles := by
  unfold write_env_regs at h
  by_cases hp : pid = k.curId
  · rw [if_pos hp] at h
    obtain ⟨rfl, rfl⟩ := Prod.mk.injEq .. ▸ Option.some.inj h
    rfl
  · rw [if_neg hp] at h
    exact try_stop_context_handles k pid _ k2 r h

theorem kfmap_handles (k : Kernel) (sk : SchemeKind) (number dstRef : Nat)
    (offset page page_count flags : Nat) (k2 : Kernel)
    (h : kfmap k sk number dstRef offset page page_count flags = .ok k2) :
    k2.handles = k.handles := by
  unfold kfmap at h
  cases sk with
  | otherScheme => simp at h
  | procScheme =>
    cases hh : k.handle number with
    | none => rw [hh] at h; simp at h
    | some hdl =>
      rw [hh] at h
      simp only [] at h
      split at h
      · split at h
        · simp at h
        · split at h
          · simp at h
          · simp only [Except.ok.injEq] at h
            subst h
            rfl
      · simp at h

theorem procWriteAddrspace_handles (k : Kernel) (ref : Nat) (buf : List UInt8) :
    (procWriteAddrspace k ref buf).1.handles = k.handles := by
  unfold procWriteAddrspace
  cases hw : wordAt (usizes buf) 0 with
  | error e => simp [hw]
  | ok op =>
    simp only [hw]
    split
    · split
      · split
        · simp
        · split
          · simp
          · split
            · simp
            · split
              · simp
              · split
                · simp
                · rename_i k2 hk
                  simpa using kfmap_handles _ _ _ _ _ _ _ _ _ hk
      · simp
    · split
      · split
        · split
          · simp
          · simp [Kernel.modifyAddrspace]
        · simp
      · split
        · split
          · split
            · simp
            · split
              · simp
              · simp [Kernel.modifyAddrspace]
          · simp
        · simp

theorem foldl_clearStop_handles (clones : List Nat) :
    ∀ k : Kernel,
    (clones.foldl (fun acc pid =>
      if (alookup acc.sessions pid).isSome then acc
      else acc.modifyCtx pid (fun c => { c with ptrace_stop := false })) k).handles
      = k.handles := by
  induction clones with
  | nil => intro k; rfl
  | cons p rest ih =>
    intro k
    simp only [List.foldl_cons]
    rw [ih]
    split
    · rfl
    · rfl

theorem preservesOps_cic (k : Kernel) (hid : Nat) :
    preservesOps k (continue_ignored_children k hid) := by
  unfold continue_ignored_children
  cases hh : k.handle hid with
  | none => exact preservesOps_refl k
  | some h =>
    dsimp only
    cases hd : h.data with
    | trace clones =>
      dsimp only
      exact preservesOps_trans
        (preservesOps_of_handles_eq (foldl_clearStop_handles clones k))
        (preservesOps_modifyHandle _ hid _ (fun h2 => rfl))
    | static b o => exact preservesOps_refl k
    | offset o => exact preservesOps_refl k
    | other => exact preservesOps_refl k

theorem procReadStatic_preservesOps (k : Kernel) (id len : Nat) (k2 : Kernel)
    (r : Except Err (Nat × List UInt8))
    (h : procReadStatic k id len = some (k2, r)) : preservesOps k k2 := by
  unfold procReadStatic at h
  cases hh : k.handle id with
  | none =>
    rw [hh] at h
    obtain ⟨rfl, rfl⟩ := Prod.mk.injEq .. ▸ Option.some.inj h
    exact preservesOps_refl k
  | some hdl =>
    rw [hh] at h
    dsimp only at h
    cases hd : hdl.data with
    | static data off =>
      rw [hd] at h
      dsimp only at h
      obtain ⟨rfl, rfl⟩ := Prod.mk.injEq .. ▸ Option.some.inj h
      exact preservesOps_modifyHandle _ id _ (fun h2 => rfl)
    | trace c => rw [hd] at h; simp at h
    | offset o => rw [hd] at h; simp at h
    | other => rw [hd] at h; simp at h

theorem procReadTrace_preservesOps (k : Kernel) (id : Nat) (info : Info)
    (len : Nat) (k2 : Kernel) (r : Except Err (Nat × List UInt8))
    (h : procReadTrace k id info len = some (k2, r)) : preservesOps k k2 := by
  unfold procReadTrace at h
  cases hh : k.handle id with
  | none =>
    rw [hh] at h
    obtain ⟨rfl, rfl⟩ := Prod.mk.injEq .. ▸ Option.some.inj h
    exact preservesOps_refl k
  | some hdl =>
    rw [hh] at h
    dsimp only at h
    cases hd : hdl.data with
    | trace clones =>
      rw [hd] at h
      dsimp only at h
      split at h
      · obtain ⟨rfl, rfl⟩ := Prod.mk.injEq .. ▸ Option.some.inj h
        exact preservesOps_refl k
      · split at h
        · exact absurd h (by simp)
        · split at h
          · obtain ⟨rfl, rfl⟩ := Prod.mk.injEq .. ▸ Option.some.inj h
            exact preservesOps_refl k
          · split at h
            · obtain ⟨rfl, rfl⟩ := Prod.mk.injEq .. ▸ Option.some.inj h
              exact preservesOps_refl k
            · split at h
              · split at h
                · obtain ⟨rfl, rfl⟩ := Prod.mk.injEq .. ▸ Option.some.inj h
                  refine preservesOps_trans (preservesOps_of_handles_eq rfl) ?_
                  exact preservesOps_modifyHandle _ id _ (fun h2 => rfl)
                · exact absurd h (by simp)
              · obtain ⟨rfl, rfl⟩ := Prod.mk.injEq .. ▸ Option.some.inj h
                refine preservesOps_trans (preservesOps_of_handles_eq rfl) ?_
                exact preservesOps_modifyHandle _ id _ (fun h2 => rfl)
    | static b o => rw [hd] at h; simp at h
    | offset o => rw [hd] at h; simp at h
    | other => rw [hd] at h; simp at h

theorem procReadAddrspace_preservesOps (k : Kernel) (id ref len : Nat)
    (k2 : Kernel) (r : Except Err (Nat × List UInt8))
    (h : procReadAddrspace k id ref len = some (k2, r)) : preservesOps k k2 := by
  unfold procReadAddrspace at h
  cases hh : k.handle id with
  | none =>
    rw [hh] at h
    obtain ⟨rfl, rfl⟩ := Prod.mk.injEq .. ▸ Option.some.inj h
    exact preservesOps_refl k
  | some hdl =>
    rw [hh] at h
    dsimp only at h
    cases hd : hdl.data with
    | offset o =>
      rw [hd] at h
      dsimp only at h
      split at h
      · exact absurd h (by simp)
      · obtain ⟨rfl, rfl⟩ := Prod.mk.injEq .. ▸ Option.some.inj h
        exact preservesOps_modifyHandle _ id _ (fun h2 => rfl)
    | static b o =>
      rw [hd] at h
      dsimp only at h
      obtain ⟨rfl, rfl⟩ := Prod.mk.injEq .. ▸ Option.some.inj h
      exact preservesOps_refl k
    | trace c =>
      rw [hd] at h
      dsimp only at h
      obtain ⟨rfl, rfl⟩ := Prod.mk.injEq .. ▸ Option.some.inj h
      exact preservesOps_refl k
    | other =>
      rw [hd] at h
      dsimp only at h
      obtain ⟨rfl, rfl⟩ := Prod.mk.injEq .. ▸ Option.some.inj h
      exact preservesOps_refl k

theorem read_env_regs_handles (k : Kernel) (pid : Nat) (k2 : Kernel)
    (r : Except Err (Nat × Nat)) (h : read_env_regs k pid = some (k2, r)) :
    k2.handles = k.handles := by
  unfold read_env_regs at h
  by_cases hp : pid = k.curId
  · rw [if_pos hp] at h
    obtain ⟨rfl, rfl⟩ := Prod.mk.injEq .. ▸ Option.some.inj h
    rfl
  · rw [if_neg hp] at h
    exact try_stop_context_handles k pid _ k2 r h

theorem procReadOp_preservesOps (k : Kernel) (id : Nat) (info : Info) (len : Nat)
    (k2 : Kernel) (r : Except Err (Nat × List UInt8))
    (h : procReadOp k id info len = some (k2, r)) : preservesOps k k2 := by
  unfold procReadOp at h
  cases hop : info.operation <;> rw [hop] at h <;> dsimp only at h
  case regs rk =>
    cases rk <;> dsimp only at h
    case float =>
      split at h
      · obtain ⟨rfl, rfl⟩ := Prod.mk.injEq .. ▸ Option.some.inj h
        exact preservesOps_refl k
      · obtain ⟨rfl, rfl⟩ := Prod.mk.injEq .. ▸ Option.some.inj h
        exact preservesOps_refl k
    case int =>
      split at h
      · exact absurd h (by simp)
      · rename_i k1 e heq
        obtain ⟨rfl, rfl⟩ := Prod.mk.injEq .. ▸ Option.some.inj h
        exact preservesOps_of_handles_eq (try_stop_context_handles _ _ _ _ _ heq)
      · rename_i k1 v heq
        obtain ⟨rfl, rfl⟩ := Prod.mk.injEq .. ▸ Option.some.inj h
        exact preservesOps_of_handles_eq (try_stop_context_handles _ _ _ _ _ heq)
    case env =>
      split at h
      · exact absurd h (by simp)
      · rename_i k1 e heq
        obtain ⟨rfl, rfl⟩ := Prod.mk.injEq .. ▸ Option.some.inj h
        exact preservesOps_of_handles_eq (read_env_regs_handles _ _ _ _ heq)
      · rename_i k1 w0 w1 heq
        obtain ⟨rfl, rfl⟩ := Prod.mk.injEq .. ▸ Option.some.inj h
        exact preservesOps_of_handles_eq (read_env_regs_handles _ _ _ _ heq)
  case trace => exact procReadTrace_preservesOps _ _ _ _ _ _ h
  case static p => exact procReadStatic_preservesOps _ _ _ _ _ h
  case filetable f => exact procReadStatic_preservesOps _ _ _ _ _ h
  case addrspace ref => exact procReadAddrspace_preservesOps _ _ _ _ _ _ h
  case name =>
    split at h
    · obtain ⟨rfl, rfl⟩ := Prod.mk.injEq .. ▸ Option.some.inj h
      exact preservesOps_refl k
    · obtain ⟨rfl, rfl⟩ := Prod.mk.injEq .. ▸ Option.some.inj h
      exact preservesOps_refl k
  case sigstack =>
    split at h
    · obtain ⟨rfl, rfl⟩ := Prod.mk.injEq .. ▸ Option.some.inj h
      exact preservesOps_refl k
    · obtain ⟨rfl, rfl⟩ := Prod.mk.injEq .. ▸ Option.some.inj h
      exact preservesOps_refl k
  case attr a =>
    split at h
    · obtain ⟨rfl, rfl⟩ := Prod.mk.injEq .. ▸ Option.some.inj h
      exact preservesOps_refl k
    · obtain ⟨rfl, rfl⟩ := Prod.mk.injEq .. ▸ Option.some.inj h
      exact preservesOps_refl k
  case mmapMinAddr ref =>
    split at h
    · exact absurd h (by simp)
    · split at h
      · obtain ⟨rfl, rfl⟩ := Prod.mk.injEq .. ▸ Option.some.inj h
        exact preservesOps_refl k
      · obtain ⟨rfl, rfl⟩ := Prod.mk.injEq .. ▸ Option.some.inj h
        exact preservesOps_refl k
  case schedAffinity =>
    unfold procReadSchedAffinity at h
    repeat' split at h
    all_goals
      obtain ⟨rfl, rfl⟩ := Prod.mk.injEq .. ▸ Option.some.inj h
    all_goals exact preservesOps_refl k
  all_goals
    obtain ⟨rfl, rfl⟩ := Prod.mk.injEq .. ▸ Option.some.inj h
  all_goals exact preservesOps_refl k

theorem procWriteRegsFloat_handles (k : Kernel) (pid : Nat) (buf : List UInt8) :
    (procWriteRegsFloat k pid buf).1.handles = k.handles := by
  unfold procWriteRegsFloat
  split
  · exact with_context_mut_handles ..
  · rfl

theorem procWriteRegsInt_handles (k : Kernel) (pid : Nat) (buf : List UInt8)
    (k2 : Kernel) (r : Except Err Nat)
    (h : procWriteRegsInt k pid buf = some (k2, r)) : k2.handles = k.handles := by
  unfold procWriteRegsInt at h
  split at h
  · exact try_stop_context_handles _ _ _ _ _ h
  · obtain ⟨rfl, rfl⟩ := Prod.mk.injEq .. ▸ Option.some.inj h
    rfl

theorem procWriteRegsEnv_handles (k : Kernel) (pid : Nat) (buf : List UInt8)
    (k2 : Kernel) (r : Except Err Nat)
    (h : procWriteRegsEnv k pid buf = some (k2, r)) : k2.handles = k.handles := by
  unfold procWriteRegsEnv at h
  split at h
  · split at h
    · split at h
      · exact absurd h (by simp)
      · rename_i k1 heq
        obtain ⟨rfl, rfl⟩ := Prod.mk.injEq .. ▸ Option.some.inj h
        exact write_env_regs_handles _ _ _ _ _ _ heq
      · rename_i k1 e heq
        obtain ⟨rfl, rfl⟩ := Prod.mk.injEq .. ▸ Option.some.inj h
        exact write_env_regs_handles _ _ _ _ _ _ heq
    · obtain ⟨rfl, rfl⟩ := Prod.mk.injEq .. ▸ Option.some.inj h
      rfl
  · obtain ⟨rfl, rfl⟩ := Prod.mk.injEq .. ▸ Option.some.inj h
    rfl


theorem traceSinglestepStep_handles (k : Kernel) (pid op : Nat)
    (k2 : Kernel) (r : Except Err Unit)
    (h : traceSinglestepStep k pid op = some (k2, r)) : k2.handles = k.handles := by
  unfold traceSinglestepStep at h
  split at h
  · exact try_stop_context_handles _ _ _ _ _ h
  · obtain ⟨rfl, rfl⟩ := Prod.mk.injEq .. ▸ Option.some.inj h
    rfl

theorem procWriteTrace_handles (k : Kernel) (pid : Nat) (buf : List UInt8)
    (k2 : Kernel) (r : Except Err Nat)
    (h : procWriteTrace k pid buf = some (k2, r)) : k2.handles = k.handles := by
  unfold procWriteTrace at h
  split at h
  · obtain ⟨rfl, rfl⟩ := Prod.mk.injEq .. ▸ Option.some.inj h
    rfl
  · split at h
    · obtain ⟨rfl, rfl⟩ := Prod.mk.injEq .. ▸ Option.some.inj h
      rfl
    · split at h
      · obtain ⟨rfl, rfl⟩ := Prod.mk.injEq .. ▸ Option.some.inj h
        rfl
      · split at h
        · exact absurd h (by simp)
        · rename_i k2a e heq
          obtain ⟨rfl, rfl⟩ := Prod.mk.injEq .. ▸ Option.some.inj h
          exact (traceSinglestepStep_handles _ _ _ _ _ heq).trans rfl
        · rename_i k2a heq
          have h2a : k2a.handles = k.handles :=
            (traceSinglestepStep_handles _ _ _ _ _ heq).trans rfl
          split at h
          · rename_i k3 e heq3
            obtain ⟨rfl, rfl⟩ := Prod.mk.injEq .. ▸ Option.some.inj h
            have h3 : k3.handles = k2a.handles := by
              have := with_context_mut_handles k2a pid
                (fun c => Except.ok ({ c with ptrace_stop := false }, ()))
              rw [heq3] at this
              exact this
            exact h3.trans h2a
          · rename_i k3 heq3
            have h3 : k3.handles = k2a.handles := by
              have := with_context_mut_handles k2a pid
                (fun c => Except.ok ({ c with ptrace_stop := false }, ()))
              rw [heq3] at this
              exact this
            split at h
            · obtain ⟨rfl, rfl⟩ := Prod.mk.injEq .. ▸ Option.some.inj h
              exact h3.trans h2a
            · obtain ⟨rfl, rfl⟩ := Prod.mk.injEq .. ▸ Option.some.inj h
              exact h3.trans h2a

theorem procWriteName_handles (k : Kernel) (pid : Nat) (buf : List UInt8) :
    (procWriteName k pid buf).1.handles = k.handles := by
  unfold procWriteName
  dsimp only
  repeat' split
  all_goals rfl

theorem procWriteSigstack_handles (k : Kernel) (pid : Nat) (buf : List UInt8) :
    (procWriteSigstack k pid buf).1.handles = k.handles := by
  unfold procWriteSigstack
  repeat' split
  all_goals rfl

theorem procWriteAttr_handles (k : Kernel) (pid : Nat) (a : AttrKind)
    (buf : List UInt8) :
    (procWriteAttr k pid a buf).1.handles = k.handles := by
  unfold procWriteAttr
  repeat' split
  all_goals rfl

theorem procWriteMmapMinAddr_handles (k : Kernel) (ref : Nat) (buf : List UInt8) :
    (procWriteMmapMinAddr k ref buf).1.handles = k.handles := by
  unfold procWriteMmapMinAddr
  repeat' split
  all_goals rfl

theorem procWriteSchedAffinity_handles (k : Kernel) (pid : Nat) (buf : List UInt8) :
    (procWriteSchedAffinity k pid buf).1.handles = k.handles := by
  unfold procWriteSchedAffinity
  repeat' split
  all_goals rfl

/-- How the operation tag of a proc handle may legally evolve: it stays
fixed, except that a successful write to a Current* handle replaces it with
the matching Awaiting* variant. -/
def opEvolves (T T2 : Operation) : Prop :=
  T2 = T
  ∨ (T = .currentFiletable ∧ ∃ f, T2 = .awaitingFiletableChange f)
  ∨ (T = .currentAddrSpace ∧ ∃ a sp ip, T2 = .awaitingAddrSpaceChange a sp ip)
  ∨ (T = .currentSigactions ∧ ∃ s, T2 = .awaitingSigactionsChange s)

theorem opEvolves_refl (T : Operation) : opEvolves T T := Or.inl rfl

theorem opEvolves_trans {T T2 T3 : Operation}
    (a : opEvolves T T2) (b : opEvolves T2 T3) : opEvolves T T3 := by
  rcases b with rfl | ⟨hb, f, rfl⟩ | ⟨hb, x, sp, ip, rfl⟩ | ⟨hb, s, rfl⟩
  · exact a
  · rcases a with rfl | ⟨ha, f2, h2⟩ | ⟨ha, x2, sp2, ip2, h2⟩ | ⟨ha, s2, h2⟩
    · exact Or.inr (Or.inl ⟨hb, f, rfl⟩)
    all_goals (rw [h2] at hb; cases hb)
  · rcases a with rfl | ⟨ha, f2, h2⟩ | ⟨ha, x2, sp2, ip2, h2⟩ | ⟨ha, s2, h2⟩
    · exact Or.inr (Or.inr (Or.inl ⟨hb, x, sp, ip, rfl⟩))
    all_goals (rw [h2] at hb; cases hb)
  · rcases a with rfl | ⟨ha, f2, h2⟩ | ⟨ha, x2, sp2, ip2, h2⟩ | ⟨ha, s2, h2⟩
    · exact Or.inr (Or.inr (Or.inr ⟨hb, s, rfl⟩))
    all_goals (rw [h2] at hb; cases hb)

theorem procWriteCurrentFiletable_spec (k : Kernel) (id : Nat) (buf : List UInt8) :
    (procWriteCurrentFiletable k id buf).1 = k
    ∨ ∃ ft, (procWriteCurrentFiletable k id buf).1
        = k.modifyHandle id (fun h2 =>
            { h2 with info := { h2.info with operation := .awaitingFiletableChange ft } }) := by
  unfold procWriteCurrentFiletable
  repeat' split
  · exact Or.inl rfl
  · exact Or.inl rfl
  · exact Or.inl rfl
  · exact Or.inl rfl
  · exact Or.inr ⟨_, rfl⟩

theorem procWriteCurrentAddrSpace_spec (k : Kernel) (id : Nat) (buf : List UInt8) :
    (procWriteCurrentAddrSpace k id buf).1 = k
    ∨ ∃ a sp ip, (procWriteCurrentAddrSpace k id buf).1
        = k.modifyHandle id (fun h2 =>
            { h2 with info := { h2.info with
              operation := .awaitingAddrSpaceChange a sp ip } }) := by
  unfold procWriteCurrentAddrSpace
  repeat' split
  · exact Or.inl rfl
  · exact Or.inl rfl
  · exact Or.inl rfl
  · exact Or.inr ⟨_, _, _, rfl⟩
  · exact Or.inl rfl

theorem procWriteCurrentSigactions_spec (k : Kernel) (id : Nat) (buf : List UInt8) :
    (procWriteCurrentSigactions k id buf).1 = k
    ∨ ∃ sa, (procWriteCurrentSigactions k id buf).1
        = k.modifyHandle id (fun h2 =>
            { h2 with info := { h2.info with
              operation := .awaitingSigactionsChange sa } }) := by
  unfold procWriteCurrentSigactions
  repeat' split
  · exact Or.inl rfl
  · exact Or.inl rfl
  · exact Or.inl rfl
  · exact Or.inl rfl
  · exact Or.inr ⟨_, rfl⟩

theorem evolves_of_handles_eq {k k2 : Kernel} (heq : k2.handles = k.handles)
    (id hid : Nat) (h0 : Handle) (hh : k.handle hid = some h0)
    (T : Operation) :
    ∃ h2, k2.handle hid = some h2 ∧
      (h2.info.operation = h0.info.operation
       ∨ (hid = id ∧ opEvolves T h2.info.operation)) := by
  refine ⟨h0, ?_, Or.inl rfl⟩
  rw [Kernel.handle, heq]
  exact hh

theorem procWriteOp_evolves (k : Kernel) (id : Nat) (info : Info)
    (buf : List UInt8) (k2 : Kernel) (r : Except Err Nat)
    (h : procWriteOp k id info buf = some (k2, r))
    (hid : Nat) (h0 : Handle) (hh : k.handle hid = some h0) :
    ∃ h2, k2.handle hid = some h2 ∧
      (h2.info.operation = h0.info.operation
       ∨ (hid = id ∧ opEvolves info.operation h2.info.operation)) := by
  unfold procWriteOp at h
  cases hop : info.operation <;> rw [hop] at h <;> (try dsimp only at h)
  case static =>
    obtain ⟨rfl, rfl⟩ := Prod.mk.injEq .. ▸ Option.some.inj h
    exact evolves_of_handles_eq rfl id hid h0 hh _
  case addrspace ref =>
    obtain ⟨hk, rfl⟩ := Prod.mk.injEq .. ▸ Option.some.inj h
    exact evolves_of_handles_eq
      (hk ▸ procWriteAddrspace_handles k ref buf) id hid h0 hh _
  case regs rk =>
    cases rk <;> dsimp only at h
    case float =>
      obtain ⟨hk, rfl⟩ := Prod.mk.injEq .. ▸ Option.some.inj h
      exact evolves_of_handles_eq
        (hk ▸ procWriteRegsFloat_handles k info.pid buf) id hid h0 hh _
    case int =>
      exact evolves_of_handles_eq
        (procWriteRegsInt_handles k info.pid buf k2 r h) id hid h0 hh _
    case env =>
      exact evolves_of_handles_eq
        (procWriteRegsEnv_handles k info.pid buf k2 r h) id hid h0 hh _
  case trace =>
    exact evolves_of_handles_eq
      (procWriteTrace_handles k info.pid buf k2 r h) id hid h0 hh _
  case name =>
    obtain ⟨hk, rfl⟩ := Prod.mk.injEq .. ▸ Option.some.inj h
    exact evolves_of_handles_eq
      (hk ▸ procWriteName_handles k info.pid buf) id hid h0 hh _
  case sigstack =>
    obtain ⟨hk, rfl⟩ := Prod.mk.injEq .. ▸ Option.some.inj h
    exact evolves_of_handles_eq
      (hk ▸ procWriteSigstack_handles k info.pid buf) id hid h0 hh _
  case attr a =>
    obtain ⟨hk, rfl⟩ := Prod.mk.injEq .. ▸ Option.some.inj h
    exact evolves_of_handles_eq
      (hk ▸ procWriteAttr_handles k info.pid a buf) id hid h0 hh _
  case filetable =>
    obtain ⟨rfl, rfl⟩ := Prod.mk.injEq .. ▸ Option.some.inj h
    exact evolves_of_handles_eq rfl id hid h0 hh _
  case mmapMinAddr ref =>
    obtain ⟨hk, rfl⟩ := Prod.mk.injEq .. ▸ Option.some.inj h
    exact evolves_of_handles_eq
      (hk ▸ procWriteMmapMinAddr_handles k ref buf) id hid h0 hh _
  case schedAffinity =>
    obtain ⟨hk, rfl⟩ := Prod.mk.injEq .. ▸ Option.some.inj h
    exact evolves_of_handles_eq
      (hk ▸ procWriteSchedAffinity_handles k info.pid buf) id hid h0 hh _
  case currentFiletable =>
    have hk : (procWriteCurrentFiletable k id buf).1 = k2 :=
      congrArg Prod.fst (Option.some.inj h)
    rcases procWriteCurrentFiletable_spec k id buf with hsp | ⟨ft, hsp⟩
    · exact evolves_of_handles_eq (by rw [← hk, hsp]) id hid h0 hh _
    · rw [hsp] at hk
      subst hk
      by_cases hji : hid = id
      · subst hji
        rw [handle_modifyHandle, if_pos rfl, hh]
        exact ⟨_, rfl, Or.inr ⟨rfl, Or.inr (Or.inl ⟨rfl, ft, rfl⟩)⟩⟩
      · rw [handle_modifyHandle, if_neg hji]
        exact ⟨h0, hh, Or.inl rfl⟩
  case currentAddrSpace =>
    have hk : (procWriteCurrentAddrSpace k id buf).1 = k2 :=
      congrArg Prod.fst (Option.some.inj h)
    rcases procWriteCurrentAddrSpace_spec k id buf with hsp | ⟨a, sp, ip, hsp⟩
    · exact evolves_of_handles_eq (by rw [← hk, hsp]) id hid h0 hh _
    · rw [hsp] at hk
      subst hk
      by_cases hji : hid = id
      · subst hji
        rw [handle_modifyHandle, if_pos rfl, hh]
        exact ⟨_, rfl, Or.inr ⟨rfl, Or.inr (Or.inr (Or.inl ⟨rfl, a, sp, ip, rfl⟩))⟩⟩
      · rw [handle_modifyHandle, if_neg hji]
        exact ⟨h0, hh, Or.inl rfl⟩
  case currentSigactions =>
    have hk : (procWriteCurrentSigactions k id buf).1 = k2 :=
      congrArg Prod.fst (Option.some.inj h)
    rcases procWriteCurrentSigactions_spec k id buf with hsp | ⟨sa, hsp⟩
    · exact evolves_of_handles_eq (by rw [← hk, hsp]) id hid h0 hh _
    · rw [hsp] at hk
      subst hk
      by_cases hji : hid = id
      · subst hji
        rw [handle_modifyHandle, if_pos rfl, hh]
        exact ⟨_, rfl, Or.inr ⟨rfl, Or.inr (Or.inr (Or.inr ⟨rfl, sa, rfl⟩))⟩⟩
      · rw [handle_modifyHandle, if_neg hji]
        exact ⟨h0, hh, Or.inl rfl⟩
  all_goals
    obtain ⟨rfl, rfl⟩ := Prod.mk.injEq .. ▸ Option.some.inj h
  all_goals exact evolves_of_handles_eq rfl id hid h0 hh _

theorem procFcntl_preservesOps (k : Kernel) (id cmd arg : Nat) :
    preservesOps k (procFcntl k id cmd arg).1 := by
  unfold procFcntl
  repeat' split
  · exact preservesOps_refl k
  · exact preservesOps_modifyHandle k id _ (fun h => rfl)
  · exact preservesOps_refl k
  · exact preservesOps_refl k

theorem procRead_preservesOps (k : Kernel) (id : Nat) (len : Nat)
    (k2 : Kernel) (r : Except Err (Nat × List UInt8))
    (h : procRead k id len = some (k2, r)) : preservesOps k k2 := by
  unfold procRead at h
  split at h
  · obtain ⟨rfl, rfl⟩ := Prod.mk.injEq .. ▸ Option.some.inj h
    exact preservesOps_refl k
  · exact procReadOp_preservesOps k id _ len k2 r h

theorem procWrite_evolves (k : Kernel) (id : Nat) (buf : List UInt8)
    (k2 : Kernel) (r : Except Err Nat)
    (h : procWrite k id buf = some (k2, r))
    (hid : Nat) (h0 : Handle) (hh : k.handle hid = some h0) :
    ∃ h2, k2.handle hid = some h2
      ∧ opEvolves h0.info.operation h2.info.operation := by
  unfold procWrite at h
  cases hhid : k.handle id with
  | none =>
    rw [hhid] at h
    obtain ⟨rfl, rfl⟩ := Prod.mk.injEq .. ▸ Option.some.inj h
    exact ⟨h0, hh, opEvolves_refl _⟩
  | some hdl =>
    rw [hhid] at h
    dsimp only at h
    obtain ⟨h1, hh1, hop1⟩ := preservesOps_cic k id hid h0 hh
    obtain ⟨h2, hh2, hc⟩ := procWriteOp_evolves _ id hdl.info buf k2 r h hid h1 hh1
    rcases hc with he | ⟨rfl, hev⟩
    · exact ⟨h2, hh2, Or.inl (he.trans hop1)⟩
    · have hd0 : hdl = h0 := Option.some.inj (hhid.symm.trans hh)
      exact ⟨h2, hh2, hd0 ▸ hev⟩

/-- One client call on the proc scheme between open and close: a read, a
write, or an fcntl, each addressed at a handle id. -/
inductive ProcCall where
  | read (id bufLen : Nat)
  | write (id : Nat) (buf : List UInt8)
  | fcntl (id cmd arg : Nat)
  deriving DecidableEq, Repr

/-- One proc-scheme call acting on the kernel state; `none` models a panic
or an unbounded spin inside the call. -/
def procStep (k : Kernel) : ProcCall → Option Kernel
  | .read id n => (procRead k id n).map Prod.fst
  | .write id b => (procWrite k id b).map Prod.fst
  | .fcntl id c a => some (procFcntl k id c a).1

/-- A finite sequence of proc-scheme calls, stopping at the first panic. -/
def procRun (k : Kernel) : List ProcCall → Option Kernel
  | [] => some k
  | c :: rest =>
    match procStep k c with
    | none => none
    | some k1 => procRun k1 rest

theorem procStep_evolves (k : Kernel) (c : ProcCall) (k2 : Kernel)
    (h : procStep k c = some k2)
    (hid : Nat) (h0 : Handle) (hh : k.handle hid = some h0) :
    ∃ h2, k2.handle hid = some h2
      ∧ opEvolves h0.info.operation h2.info.operation := by
  cases c with
  | read id n =>
    unfold procStep at h
    dsimp only at h
    cases hr : procRead k id n with
    | none => rw [hr] at h; cases h
    | some p =>
      rw [hr] at h
      obtain rfl : p.1 = k2 := Option.some.inj h
      obtain ⟨h2, hh2, hop⟩ := procRead_preservesOps k id n p.1 p.2 (by rw [hr]) hid h0 hh
      exact ⟨h2, hh2, Or.inl hop⟩
  | write id b =>
    unfold procStep at h
    dsimp only at h
    cases hr : procWrite k id b with
    | none => rw [hr] at h; cases h
    | some p =>
      rw [hr] at h
      obtain rfl : p.1 = k2 := Option.some.inj h
      exact procWrite_evolves k id b p.1 p.2 (by rw [hr]) hid h0 hh
  | fcntl id cm a =>
    unfold procStep at h
    dsimp only at h
    obtain rfl : (procFcntl k id cm a).1 = k2 := Option.some.inj h
    obtain ⟨h2, hh2, hop⟩ := procFcntl_preservesOps k id cm a hid h0 hh
    exact ⟨h2, hh2, Or.inl hop⟩

/-- C5 (amended): across any sequence of proc-scheme reads, writes and
fcntl calls, the `operation` tag of every surviving handle either stays at
its open-time variant T, or — exactly when T is `CurrentFiletable`,
`CurrentAddrSpace` or `CurrentSigactions` — is replaced by the matching
`Awaiting...Change` variant by a successful write to that handle; it is
not immutable. -/
theorem c5_operation_evolution (k : Kernel) (calls : List ProcCall)
    (k2 : Kernel) (h : procRun k calls = some k2)
    (hid : Nat) (h0 : Handle) (hh : k.handle hid = some h0) :
    ∃ h2, k2.handle hid = some h2
      ∧ opEvolves h0.info.operation h2.info.operation := by
  induction calls generalizing k h0 with
  | nil =>
    obtain rfl : k = k2 := Option.some.inj h
    exact ⟨h0, hh, opEvolves_refl _⟩
  | cons c rest ih =>
    unfold procRun at h
    cases hs : procStep k c with
    | none => rw [hs] at h; cases h
    | some k1 =>
      rw [hs] at h
      obtain ⟨h1, hh1, hop1⟩ := procStep_evolves k c k1 hs hid h0 hh
      obtain ⟨h2, hh2, hop2⟩ := ih k1 h h1 hh1
      exact ⟨h2, hh2, opEvolves_trans hop1 hop2⟩

/-- A concrete kernel for the C5 counterexample: the current context's file
table holds a proc filetable handle (id 10) at fd 0, and handle 20 is a
`CurrentFiletable` handle. -/
def kc5 : Kernel where
  contexts := [(1, sampleCtx)]
  curId := 1
  cpuCount := 1
  handles := [(10, ⟨⟨1, 0, .filetable 7⟩, .other⟩),
              (20, ⟨⟨1, 0, .currentFiletable⟩, .other⟩)]
  nextHandleId := 21
  filetables := [(0, [some ⟨1, 10⟩])]
  addrspaces := []
  sessions := []
  schemes := [(1, .procScheme)]
  hwTpidrEl0 := 0
  hwTpidrroEl0 := 0

/-- The kernel after the C5 write: handle 20 now carries
`AwaitingFiletableChange`. -/
def kc5after : Kernel :=
  { kc5 with handles := [(10, ⟨⟨1, 0, .filetable 7⟩, .other⟩),
                         (20, ⟨⟨1, 0, .awaitingFiletableChange 7⟩, .other⟩)] }

/-- C5 counterexample: a successful 8-byte write of fd 0 to the
`CurrentFiletable` handle 20 replaces its operation tag with
`AwaitingFiletableChange`, so the operation observed at close differs from
the variant held at open. -/
theorem c5_operation_change_counterexample :
    procWrite kc5 20 (natToLeBytes 0 8) = some (kc5after, .ok 8)
    ∧ kc5.handle 20
        = some ⟨⟨1, 0, .currentFiletable⟩, .other⟩
    ∧ kc5after.handle 20
        = some ⟨⟨1, 0, .awaitingFiletableChange 7⟩, .other⟩ :=
  ⟨rfl, rfl, rfl⟩

/-- Witness for C5 at a concrete run: the single write above is a `procRun`
whose surviving handle 20 evolved along `opEvolves`. -/
theorem c5_operation_evolution_witness :
    procRun kc5 [ProcCall.write 20 (natToLeBytes 0 8)] = some kc5after
    ∧ ∃ h2, kc5after.handle 20 = some h2
        ∧ opEvolves Operation.currentFiletable h2.info.operation :=
  ⟨rfl, c5_operation_evolution kc5 [ProcCall.write 20 (natToLeBytes 0 8)]
    kc5after rfl 20 ⟨⟨1, 0, .currentFiletable⟩, .other⟩ rfl⟩
